import Mathlib

/-!
Shallow embedding of the MT5 grid-martingale trading bot (two source variants:
the v110.11 "StaticGrid" file and the v103.4 Fibonacci file `mt5bot.py`).

Prices, volumes and equity are modelled as exact rationals (`ℚ`); the venue
(MetaTrader 5) is external, so every venue query made during a pass is supplied
as explicit input (position/order snapshots, order-send results), and every
venue-mutating call is recorded as an `Action` in an output trace.  Python's
`round` (banker's rounding) is modelled by `pyRoundInt`/`roundDp`.
-/

namespace GridBot

/-- Order/position direction.  BUY corresponds to `ORDER_TYPE_BUY` /
`ORDER_TYPE_BUY_LIMIT`, SELL to the sell counterparts. -/
inductive Side where
  | buy
  | sell
deriving DecidableEq, Repr

/-- An open position as reported by `mt5.positions_get`. -/
structure Position where
  ticket : ℕ
  magic : ℕ
  side : Side
  volume : ℚ
  price_open : ℚ
  tp : ℚ
  sl : ℚ
  comment : String
  time : ℕ
  time_msc : ℕ
deriving DecidableEq, Repr

/-- A pending limit order as reported by `mt5.orders_get` (`side = buy` means a
BUY_LIMIT order). -/
structure PendingOrder where
  ticket : ℕ
  magic : ℕ
  side : Side
  price : ℚ
deriving DecidableEq, Repr

/-- The per-basket state kept in `grid_states` (v110.11 source, keyed by magic
number). -/
structure GridState where
  name : Char
  buy_anchor_price : Option ℚ
  sell_anchor_price : Option ℚ
  buy_sequence_index : ℕ
  sell_sequence_index : ℕ
  prev_buy_count : ℕ
  prev_sell_count : ℕ
  capped_buy : Bool
  capped_sell : Bool
deriving DecidableEq, Repr

/-- The configuration constants of the v110.11 source (env-loaded plus the
hard-coded `GRID_LOT_SEQUENCE`), together with the instrument metadata
(`digits`, `point`, volume limits) that the source reads from
`mt5.symbol_info`.  Trading-session times are seconds since midnight UTC. -/
structure Config where
  lotSmall : ℚ
  lotMax : ℚ
  gridLotSequence : List ℚ
  gridStepPips : ℚ
  dynamicStepPips : ℚ
  dynamicPositionsTrigger : ℕ
  maxPositions : ℕ
  profitTargetAmt : ℚ
  maxLossAmt : ℚ
  maxPendingGridOrdersPerSide : ℕ
  maxActiveGrids : ℕ
  enableTradingHours : Bool
  tradingStartTime : Option ℕ
  tradingEndTime : Option ℕ
  digits : ℕ
  point : ℚ
  volumeStep : ℚ
  volumeMin : ℚ
  volumeMax : ℚ
deriving DecidableEq, Repr

/-- Python `round(x)`: round half to even (banker's rounding), as an integer. -/
def pyRoundInt (q : ℚ) : ℤ :=
  let f := ⌊q⌋
  let r := q - (f : ℚ)
  if r < 1/2 then f
  else if 1/2 < r then f + 1
  else if f % 2 = 0 then f else f + 1

/-- Python `round(x, d)` for `d` decimal digits. -/
def roundDp (d : ℕ) (q : ℚ) : ℚ :=
  (pyRoundInt (q * 10 ^ d) : ℚ) / 10 ^ d

/-- The source's `pip_val()`: pip size derived from the instrument's quoted
decimal digits (falling back to the instrument point). -/
def pip_of_digits (digits : ℕ) (point : ℚ) : ℚ :=
  if digits = 5 ∨ digits = 4 then 1/10000
  else if digits = 3 ∨ digits = 2 then 1/100
  else point

/-- `pip_val()` of the v110.11 source for the configured instrument. -/
def pip_val (cfg : Config) : ℚ :=
  pip_of_digits cfg.digits cfg.point

/-- Greatest `n` (up to `fuel`) with `10 ^ n ≤ r`; models
`abs(int(math.log10 r⁻¹))` for `r = 1/volume_step > 1`. -/
def floorLog10Fuel : ℕ → ℚ → ℕ
  | 0, _ => 0
  | fuel + 1, r => if 10 ≤ r then floorLog10Fuel fuel (r / 10) + 1 else 0

/-- The decimal precision the source derives from the volume step:
`abs(int(math.log10(volume_step))) if 0 < volume_step < 1 else 0`. -/
def volumePrecision (volume_step : ℚ) : ℕ :=
  if 0 < volume_step ∧ volume_step < 1 then
    floorLog10Fuel (1 / volume_step).num.natAbs (1 / volume_step)
  else 0

/-- The source's `adjust_lot`, with the instrument volume metadata passed
explicitly (shared by both source variants): snap to the volume step, clamp to
`[volume_min, min(volume_max, LOT_MAX)]`, then round to the step's decimal
precision. -/
def adjust_lot_raw (volumeStep volumeMin volumeMax lotMax lot : ℚ) : ℚ :=
  let volume_step := if volumeStep ≤ 0 then 1/100 else volumeStep
  let l1 := (pyRoundInt (lot / volume_step) : ℚ) * volume_step
  let l2 := max volumeMin l1
  let l3 := min volumeMax l2
  let l4 := min lotMax l3
  roundDp (volumePrecision volume_step) l4

/-- `adjust_lot` of the v110.11 source. -/
def adjust_lot (cfg : Config) (lot : ℚ) : ℚ :=
  adjust_lot_raw cfg.volumeStep cfg.volumeMin cfg.volumeMax cfg.lotMax lot

/-- Auxiliary for `strContains`: list prefix test. -/
def listPrefixOf : List Char → List Char → Bool
  | [], _ => true
  | _ :: _, [] => false
  | a :: as, b :: bs => a == b && listPrefixOf as bs

/-- Auxiliary for `strContains`: contiguous-sublist test. -/
def listContainsSub (needle : List Char) : List Char → Bool
  | [] => listPrefixOf needle []
  | b :: bs => listPrefixOf needle (b :: bs) || listContainsSub needle bs

/-- Python's `needle in hay` substring test. -/
def strContains (hay needle : String) : Bool :=
  listContainsSub needle.toList hay.toList

/-- The source's `format_mt5_comment`: `Grid<name>_<alphanumeric action>`,
truncated to the 31-character MT5 comment limit. -/
def format_mt5_comment (grid_name : Char) (action : String) : String :=
  let sane_action := String.mk (action.toList.filter Char.isAlphanum)
  let sane_action := if sane_action = "" then "trade" else sane_action
  String.mk ((("Grid".push grid_name) ++ "_" ++ sane_action).toList.take 31)

/-- Does this position carry the generic `DynamicHedge` tag
(`SEARCH_KEYWORD_DYNAMIC_HEDGE_GENERIC`)? -/
def isDynamicHedge (p : Position) : Bool :=
  strContains p.comment "DynamicHedge"

/-- `is_trading_session_active()` — `serverTime` is the terminal's UTC clock in
seconds since midnight (`none` when terminal info is unavailable). -/
def is_trading_session_active (cfg : Config) (serverTime : Option ℕ) : Bool :=
  match cfg.enableTradingHours, cfg.tradingStartTime, cfg.tradingEndTime with
  | false, _, _ => true
  | true, none, _ => true
  | true, some _, none => true
  | true, some s, some e =>
    match serverTime with
    | none => true
    | some t =>
      if s ≤ e then decide (s ≤ t ∧ t < e)
      else decide (s ≤ t ∨ t < e)

/-- The guard `ENABLE_TRADING_HOURS and not is_trading_session_active()` that
gates every new order placement. -/
def sessionBlocks (cfg : Config) (serverTime : Option ℕ) : Bool :=
  cfg.enableTradingHours && !is_trading_session_active cfg serverTime

/-- Every venue-mutating call issued during a pass, recorded in order.
`placeLimit` records the progression index `k` and the side's observed
open-position count `sideCount` at emission time; `limitRejected` records an
attempted limit order that the venue refused (retcode 10015 when
`invalidPrice`), so no order came into existence. -/
inductive Action where
  | placeMarket (magic : ℕ) (side : Side) (lot : ℚ) (sl : ℚ) (tp : Option ℚ) (comment : String)
  | placeLimit (magic : ℕ) (side : Side) (k : ℕ) (price : ℚ) (lot : ℚ) (sideCount : ℕ)
  | limitRejected (magic : ℕ) (side : Side) (k : ℕ) (price : ℚ) (invalidPrice : Bool)
  | cancelSide (magicFilter : Option ℕ) (side : Side)
  | retag (ticket : ℕ) (comment : String)
  | closeAllPositions (reason : String)
  | removeGrid (magic : ℕ)
  | clearRegistry
deriving DecidableEq, Repr

/-- Is this action the placement of a new (market or pending) order for basket
`m`? -/
def Action.isOrderFor (m : ℕ) : Action → Bool
  | .placeMarket m' _ _ _ _ _ => m' == m
  | .placeLimit m' _ _ _ _ _ => m' == m
  | _ => false

/-- Does this action destroy basket `m` (per-basket removal, or the circuit
breaker's registry clear)? -/
def Action.destroysBasket (m : ℕ) : Action → Bool
  | .removeGrid m' => m' == m
  | .clearRegistry => true
  | _ => false

/-- Is this action a market order for basket `m` in direction `s`? -/
def isMarketOrderFor (m : ℕ) (s : Side) : Action → Bool
  | .placeMarket m' s' _ _ _ _ => m' == m && s' == s
  | _ => false

/-- Outcome of one `order_send` for a limit order, as observed by `step_grid`:
retcode `DONE`, retcode 10015 (invalid price), or any other failure (including
`order_send` returning `None` or the lot being below the venue minimum). -/
inductive PlaceResult where
  | done
  | invalidPrice
  | fail
deriving DecidableEq, Repr

/-- One iteration of the population loop queries the venue's positions afresh
and then attempts one limit order; both observations are supplied here. -/
structure PopEvent where
  positions : List Position
  result : PlaceResult
deriving DecidableEq, Repr

/-- Count of open positions of basket `magic` on side `s` in a snapshot (the
source's `num_buys` / `num_sells`: all positions of the magic and type,
hedges included). -/
def sideOrderCount (ps : List Position) (magic : ℕ) (s : Side) : ℕ :=
  ((ps.filter (fun p => p.magic == magic)).filter (fun p => p.side == s)).length

/-- Step size in pips for a side whose observed open-position count is `n`:
dynamic at or above the trigger, static below it. -/
def stepPipsFor (cfg : Config) (n : ℕ) : ℚ :=
  if cfg.dynamicPositionsTrigger ≤ n then cfg.dynamicStepPips else cfg.gridStepPips

/-- Price offset applied to the anchor on side `s` (BUY levels below the
anchor, SELL levels above it). -/
def applyOffset (s : Side) (anchor offset : ℚ) : ℚ :=
  match s with
  | .buy => anchor - offset
  | .sell => anchor + offset

/-- The `while current_pending < MAX_PENDING_GRID_ORDERS_PER_SIDE` population
loop of `step_grid` for one side (the BUY and SELL blocks of the source are
literally symmetric and are embedded once, indexed by `s`).  Each iteration
re-queries positions (`e.positions`), computes the level price from the
anchor and the side's sequence index, attempts the limit order (`e.result`),
and on success increments the sequence index and the pending count; an
invalid-price or other rejection stops the side for this tick.  Returns the
final sequence index and the recorded actions. -/
def stepGridSide (cfg : Config) (magic : ℕ) (s : Side) (anchor : ℚ) :
    ℕ → ℕ → List PopEvent → ℕ × List Action
  | idx, _, [] => (idx, [])
  | idx, pending, e :: rest =>
    if pending < cfg.maxPendingGridOrdersPerSide then
      if idx < cfg.gridLotSequence.length then
        let current_lot := adjust_lot cfg (cfg.gridLotSequence.getD idx 0)
        let numSide := sideOrderCount e.positions magic s
        let price_offset := ((idx : ℚ) + 1) * stepPipsFor cfg numSide * pip_val cfg
        let price := roundDp cfg.digits (applyOffset s anchor price_offset)
        match e.result with
        | .done =>
          let next := stepGridSide cfg magic s anchor (idx + 1) (pending + 1) rest
          (next.1, .placeLimit magic s idx price current_lot numSide :: next.2)
        | .invalidPrice => (idx, [.limitRejected magic s idx price true])
        | .fail => (idx, [.limitRejected magic s idx price false])
      else (idx, [])
    else (idx, [])

/-- Venue observations consumed by one `step_grid` call: the global position
snapshot for the `MAX_POSITIONS` gate, the terminal clock, the pending-order
snapshot, and the per-iteration observations of each side's loop. -/
structure StepEnv where
  allPositions : List Position
  serverTime : Option ℕ
  pendingOrders : List PendingOrder
  buyEvents : List PopEvent
  sellEvents : List PopEvent
deriving Repr

/-- Count of live pending limit orders of basket `magic` on side `s` (the
source's `current_pending_buy_limits` / `current_pending_sell_limits`). -/
def pending_limit_count (env : StepEnv) (magic : ℕ) (s : Side) : ℕ :=
  ((env.pendingOrders.filter (fun o => o.magic == magic)).filter
    (fun o => o.side == s)).length

/-- The per-side guard of `step_grid`: a side is populated only when it is not
capped and its anchor is non-null. -/
def populate_side (cfg : Config) (magic : ℕ) (s : Side) (capped : Bool)
    (anchor : Option ℚ) (idx pending : ℕ) (evs : List PopEvent) : ℕ × List Action :=
  if capped = false then
    match anchor with
    | some a => stepGridSide cfg magic s a idx pending evs
    | none => (idx, [])
  else (idx, [])

/-- `step_grid(magic)` of the v110.11 source: skip when the global position cap
is hit or outside the trading session; otherwise populate each un-capped side
that has an anchor, up to the per-side pending cap. -/
def step_grid (cfg : Config) (magic : ℕ) (gs : GridState) (env : StepEnv) :
    GridState × List Action :=
  if cfg.maxPositions ≤ env.allPositions.length then (gs, [])
  else if sessionBlocks cfg env.serverTime then (gs, [])
  else
    let buyRes := populate_side cfg magic Side.buy gs.capped_buy gs.buy_anchor_price
      gs.buy_sequence_index (pending_limit_count env magic Side.buy) env.buyEvents
    let sellRes := populate_side cfg magic Side.sell gs.capped_sell gs.sell_anchor_price
      gs.sell_sequence_index (pending_limit_count env magic Side.sell) env.sellEvents
    ({ gs with buy_sequence_index := buyRes.1, sell_sequence_index := sellRes.1 },
      buyRes.2 ++ sellRes.2)

/-- The in-memory `grid_states` dictionary: an insertion-ordered association
list from magic number to `GridState` (Python dicts preserve insertion
order). -/
abbrev Registry := List (ℕ × GridState)

/-- Dictionary read `grid_states.get(m)`. -/
def lookupReg (reg : Registry) (m : ℕ) : Option GridState :=
  (reg.find? (fun kv => kv.1 == m)).map (fun kv => kv.2)

/-- Dictionary write `grid_states[m] = v`: update in place when the key
exists, append otherwise. -/
def upsertReg (reg : Registry) (m : ℕ) (v : GridState) : Registry :=
  if reg.any (fun kv => kv.1 == m) then
    reg.map (fun kv => if kv.1 == m then (m, v) else kv)
  else reg ++ [(m, v)]

/-- Dictionary delete `del grid_states[m]`. -/
def removeReg (reg : Registry) (m : ℕ) : Registry :=
  reg.filter (fun kv => kv.1 != m)

/-- The module-level mutable state of the v110.11 source that the grid state
machine reads and writes. -/
structure Globals where
  initial_equity : ℚ
  registry : Registry
  next_magic_number : ℕ
deriving DecidableEq, Repr

/-- The source's `base_magic_number` (magic of the bootstrap basket). -/
def base_magic_number : ℕ := 12345

/-- The fresh `GridState` created after a successful paired market hedge. -/
def freshGridState (name : Char) (buy_anchor_price sell_anchor_price : ℚ) : GridState :=
  { name := name
    buy_anchor_price := some buy_anchor_price
    sell_anchor_price := some sell_anchor_price
    buy_sequence_index := 0
    sell_sequence_index := 0
    prev_buy_count := 1
    prev_sell_count := 1
    capped_buy := false
    capped_sell := false }

/-- Venue observations consumed by `hedge_if_empty`: the position snapshot it
checks for emptiness, the terminal clock, and the fill prices of the paired
BUY/SELL market hedge (`none` when that order failed). -/
structure BootEnv where
  positions : List Position
  serverTime : Option ℕ
  buyFill : Option ℚ
  sellFill : Option ℚ
deriving Repr

/-- `hedge_if_empty()`: when no grid is registered and no position exists,
place a paired market hedge (both orders are attempted); only if both succeed
is grid "A" registered with the two fill prices as anchors. -/
def hedge_if_empty (cfg : Config) (g : Globals) (env : BootEnv) : Globals × List Action :=
  if g.registry ≠ [] ∨ env.positions ≠ [] then (g, [])
  else if sessionBlocks cfg env.serverTime then (g, [])
  else
    let buyActs : List Action := match env.buyFill with
      | some _ => [.placeMarket base_magic_number Side.buy cfg.lotSmall 0 none
          (format_mt5_comment 'A' "initial_hedge_buy")]
      | none => []
    let sellActs : List Action := match env.sellFill with
      | some _ => [.placeMarket base_magic_number Side.sell cfg.lotSmall 0 none
          (format_mt5_comment 'A' "initial_hedge_sell")]
      | none => []
    match env.buyFill, env.sellFill with
    | some pb, some ps =>
      ({ g with registry := upsertReg g.registry base_magic_number (freshGridState 'A' pb ps) },
        buyActs ++ sellActs)
    | _, _ => (g, buyActs ++ sellActs)

/-- Venue observations consumed by one `handle_closed_hedge` call: the position
snapshot taken at its top, the terminal clock, and the fill price of the BUY /
SELL re-hedge market order (`none` when that order failed). -/
structure ReconEnv where
  positions : List Position
  serverTime : Option ℕ
  rehedgeBuyFill : Option ℚ
  rehedgeSellFill : Option ℚ
deriving Repr

/-- Current count of non-hedge positions of basket `m` on side `s` in the
snapshot (the source's `current_buy_count` / `current_sell_count`). -/
def current_count (env : ReconEnv) (m : ℕ) (s : Side) : ℕ :=
  (((env.positions.filter (fun p => p.magic == m)).filter (fun p => p.side == s)).filter
    (fun p => !isDynamicHedge p)).length

/-- The BUY-closure block of `handle_closed_hedge`: on a strict decrease to
zero with the SELL side still populated (and the side not capped), cancel the
BUY pendings and, session permitting, re-hedge with a solo BUY market order
whose fill becomes the new BUY anchor (index 0). -/
def reset_buy_side (cfg : Config) (magic : ℕ) (gs : GridState) (env : ReconEnv) :
    GridState × List Action :=
  if current_count env magic Side.buy < gs.prev_buy_count ∧ gs.capped_buy = false ∧
      current_count env magic Side.buy = 0 ∧ 0 < current_count env magic Side.sell then
    if sessionBlocks cfg env.serverTime = false then
      match env.rehedgeBuyFill with
      | some fill =>
        ({ gs with buy_anchor_price := some fill, buy_sequence_index := 0 },
          [.cancelSide (some magic) Side.buy,
           .placeMarket magic Side.buy cfg.lotSmall 0 none
             (format_mt5_comment gs.name "re_hedge_buy")])
      | none => (gs, [.cancelSide (some magic) Side.buy])
    else (gs, [.cancelSide (some magic) Side.buy])
  else (gs, [])

/-- The SELL-closure block of `handle_closed_hedge` (mirror of
`reset_buy_side`). -/
def reset_sell_side (cfg : Config) (magic : ℕ) (gs1 : GridState) (env : ReconEnv) :
    GridState × List Action :=
  if current_count env magic Side.sell < gs1.prev_sell_count ∧ gs1.capped_sell = false ∧
      current_count env magic Side.sell = 0 ∧ 0 < current_count env magic Side.buy then
    if sessionBlocks cfg env.serverTime = false then
      match env.rehedgeSellFill with
      | some fill =>
        ({ gs1 with sell_anchor_price := some fill, sell_sequence_index := 0 },
          [.cancelSide (some magic) Side.sell,
           .placeMarket magic Side.sell cfg.lotSmall 0 none
             (format_mt5_comment gs1.name "re_hedge_sell")])
      | none => (gs1, [.cancelSide (some magic) Side.sell])
    else (gs1, [.cancelSide (some magic) Side.sell])
  else (gs1, [])

/-- `handle_closed_hedge(magic)`: edge-triggered closure detection.  When a
side's non-hedge count dropped to zero while the other side still has
positions (and the side is not capped), cancel that side's pending orders and,
session permitting, re-hedge it with a solo market order whose fill price
becomes the new anchor (sequence index reset to 0).  Previous counts are then
snapshotted; a basket whose position list is empty is deactivated (`none`,
with both sides' pending orders cancelled and a `removeGrid` marker). -/
def handle_closed_hedge (cfg : Config) (magic : ℕ) (gs : GridState) (env : ReconEnv) :
    Option GridState × List Action :=
  let positions_in_grid := env.positions.filter (fun p => p.magic == magic)
  let buyStep := reset_buy_side cfg magic gs env
  let sellStep := reset_sell_side cfg magic buyStep.1 env
  let gs2 := { sellStep.1 with
    prev_buy_count := current_count env magic Side.buy
    prev_sell_count := current_count env magic Side.sell }
  if positions_in_grid = [] then
    (none, buyStep.2 ++ sellStep.2 ++
      [.cancelSide (some magic) Side.buy, .cancelSide (some magic) Side.sell,
       .removeGrid magic])
  else (some gs2, buyStep.2 ++ sellStep.2)

/-- Lexicographic comparison of the Python sort key
`(time_msc if time_msc > 0 else time, ticket)`. -/
def posKeyLt (p q : Position) : Bool :=
  let kp := (if 0 < p.time_msc then p.time_msc else p.time, p.ticket)
  let kq := (if 0 < q.time_msc then q.time_msc else q.time, q.ticket)
  kp.1 < kq.1 || (kp.1 == kq.1 && kp.2 < kq.2)

/-- Head of the stable descending sort by `posKeyLt` — the most recently
opened position (ties keep the earliest list element, as Python's stable
`sort(..., reverse=True)` does). -/
def newestBy : List Position → Option Position
  | [] => none
  | p :: ps =>
    match newestBy ps with
    | none => some p
    | some q => if posKeyLt p q then some q else some p

/-- Stop-loss chosen for the capping hedge: the newest captured position's
take-profit when positive, otherwise no stop-loss. -/
def hedge_sl (positions_to_cap : List Position) : ℚ :=
  match newestBy positions_to_cap with
  | some p => if 0 < p.tp then p.tp else 0
  | none => 0

/-- Venue observations consumed by one trigger/capping check of one basket:
the position snapshot, whether the internal counter-hedge market order
succeeded, the terminal clock, and the fill prices of the new independent
grid's paired hedge (`none` when that order failed). -/
structure TrigEnv where
  positions : List Position
  hedgeOk : Bool
  serverTime : Option ℕ
  spawnBuyFill : Option ℚ
  spawnSellFill : Option ℚ
deriving Repr

/-- Positions of basket `m` on side `s` in a trigger-pass snapshot (the
source's `buy_positions` / `sell_positions`). -/
def grid_side_positions (env : TrigEnv) (m : ℕ) (s : Side) : List Position :=
  (env.positions.filter (fun p => p.magic == m)).filter (fun p => p.side == s)

/-- The non-hedge positions captured by a cap on side `s` (the source's
`positions_to_cap`). -/
def cap_candidates (env : TrigEnv) (m : ℕ) (s : Side) : List Position :=
  (grid_side_positions env m s).filter (fun p => !isDynamicHedge p)

/-- `freeze_grid_and_start_new`: re-tag every captured position with the cap
marker, cancel all pending orders on both sides, set both capped flags, and —
if the active-grid cap and the trading session allow — spawn a brand-new grid
via a paired market hedge under the next magic number (registered, and the
magic counter advanced, only when both spawn orders succeed). -/
def freeze_grid_and_start_new (cfg : Config) (g : Globals) (magic : ℕ) (gs : GridState)
    (positions_to_cap : List Position) (cap_action_tag : String) (env : TrigEnv) :
    Globals × List Action :=
  let retagActs := positions_to_cap.map
    (fun p => Action.retag p.ticket (format_mt5_comment gs.name cap_action_tag))
  let cancelActs : List Action :=
    [.cancelSide (some magic) Side.buy, .cancelSide (some magic) Side.sell]
  let gs' := { gs with capped_buy := true, capped_sell := true }
  let g1 : Globals := { g with registry := upsertReg g.registry magic gs' }
  if g1.registry.length < cfg.maxActiveGrids then
    if sessionBlocks cfg env.serverTime then (g1, retagActs ++ cancelActs)
    else
      let new_magic := g1.next_magic_number
      let new_grid_name := Char.ofNat (gs.name.toNat + 1)
      let buyActs : List Action := match env.spawnBuyFill with
        | some _ => [.placeMarket new_magic Side.buy cfg.lotSmall 0 none
            (format_mt5_comment new_grid_name "initial_hedge_buy")]
        | none => []
      let sellActs : List Action := match env.spawnSellFill with
        | some _ => [.placeMarket new_magic Side.sell cfg.lotSmall 0 none
            (format_mt5_comment new_grid_name "initial_hedge_sell")]
        | none => []
      match env.spawnBuyFill, env.spawnSellFill with
      | some pb, some ps =>
        ({ g1 with
            registry := upsertReg g1.registry new_magic (freshGridState new_grid_name pb ps)
            next_magic_number := new_magic + 1 },
          retagActs ++ cancelActs ++ buyActs ++ sellActs)
      | _, _ => (g1, retagActs ++ cancelActs ++ buyActs ++ sellActs)
  else (g1, retagActs ++ cancelActs)

/-- The body of `handle_grid_trigger_and_cap` for one basket: if an un-capped
side's position count reaches the trigger (BUY checked first, SELL only in the
`elif`), collect the non-hedge positions, place an opposite-direction market
hedge of half their total volume (size-normalized, stop-loss from
`hedge_sl`, take-profit 0), and only on hedge success freeze the grid and
possibly start a new one; on hedge failure nothing changes. -/
def trigger_and_cap_basket (cfg : Config) (g : Globals) (magic : ℕ) (gs : GridState)
    (env : TrigEnv) : Globals × List Action :=
  let buy_positions := grid_side_positions env magic Side.buy
  let sell_positions := grid_side_positions env magic Side.sell
  if gs.capped_buy = false ∧ cfg.dynamicPositionsTrigger ≤ buy_positions.length then
    let positions_to_cap := cap_candidates env magic Side.buy
    if positions_to_cap = [] then (g, [])
    else
      let total_volume_to_cap := (positions_to_cap.map (fun p => p.volume)).sum
      let hedge_lot := adjust_lot cfg (total_volume_to_cap / 2)
      let sl_for_hedge := hedge_sl positions_to_cap
      if env.hedgeOk then
        let frozen := freeze_grid_and_start_new cfg g magic gs positions_to_cap "CappedBuy" env
        (frozen.1,
          Action.placeMarket magic Side.sell hedge_lot sl_for_hedge (some 0)
            (format_mt5_comment gs.name "DynamicHedgeSell") :: frozen.2)
      else (g, [])
  else if gs.capped_sell = false ∧ cfg.dynamicPositionsTrigger ≤ sell_positions.length then
    let positions_to_cap := cap_candidates env magic Side.sell
    if positions_to_cap = [] then (g, [])
    else
      let total_volume_to_cap := (positions_to_cap.map (fun p => p.volume)).sum
      let hedge_lot := adjust_lot cfg (total_volume_to_cap / 2)
      let sl_for_hedge := hedge_sl positions_to_cap
      if env.hedgeOk then
        let frozen := freeze_grid_and_start_new cfg g magic gs positions_to_cap "CappedSell" env
        (frozen.1,
          Action.placeMarket magic Side.buy hedge_lot sl_for_hedge (some 0)
            (format_mt5_comment gs.name "DynamicHedgeBuy") :: frozen.2)
      else (g, [])
  else (g, [])

/-- All venue observations consumed by one iteration of the main loop. -/
structure TickEnv where
  equity : Option ℚ
  postCloseEquity : Option ℚ
  trigEnv : ℕ → TrigEnv
  reconEnv : ℕ → ReconEnv
  stepEnv : ℕ → StepEnv
  bootEnv : BootEnv

/-- The `for magic in list(grid_states.keys())` loop of
`handle_grid_trigger_and_cap`, over a fixed key snapshot. -/
def trig_pass_go (cfg : Config) (envf : ℕ → TrigEnv) :
    List ℕ → Globals → Globals × List Action
  | [], g => (g, [])
  | k :: ks, g =>
    let stepR :=
      match lookupReg g.registry k with
      | none => (g, [])
      | some gs => trigger_and_cap_basket cfg g k gs (envf k)
    let rest := trig_pass_go cfg envf ks stepR.1
    (rest.1, stepR.2 ++ rest.2)

/-- `handle_grid_trigger_and_cap()` over the whole registry. -/
def handle_grid_trigger_and_cap (cfg : Config) (g : Globals) (envf : ℕ → TrigEnv) :
    Globals × List Action :=
  trig_pass_go cfg envf (g.registry.map (fun kv => kv.1)) g

/-- One basket's share of the main loop's per-basket pass:
`handle_closed_hedge` (which may deactivate the basket) followed by
`step_grid`.  (`sync_all_tps` only modifies take-profits of existing
positions — it places no orders and touches no `GridState` — and is not
modelled.) -/
def basket_pass (cfg : Config) (env : TickEnv) (g : Globals) (m : ℕ) :
    Globals × List Action :=
  match lookupReg g.registry m with
  | none => (g, [])
  | some gs =>
    let r1 := handle_closed_hedge cfg m gs (env.reconEnv m)
    match r1.1 with
    | none => ({ g with registry := removeReg g.registry m }, r1.2)
    | some gs1 =>
      let r2 := step_grid cfg m gs1 (env.stepEnv m)
      ({ g with registry := upsertReg g.registry m r2.1 }, r1.2 ++ r2.2)

/-- The `for magic_key in list(grid_states.keys())` per-basket pass. -/
def basket_pass_go (cfg : Config) (env : TickEnv) :
    List ℕ → Globals → Globals × List Action
  | [], g => (g, [])
  | k :: ks, g =>
    let s := basket_pass cfg env g k
    let rest := basket_pass_go cfg env ks s.1
    (rest.1, s.2 ++ rest.2)

/-- The core trading logic of one loop iteration: trigger/capping pass, then
the per-basket reconcile-and-populate pass, then `hedge_if_empty`. -/
def core_pass (cfg : Config) (g : Globals) (env : TickEnv) : Globals × List Action :=
  let t := handle_grid_trigger_and_cap cfg g env.trigEnv
  let b := basket_pass_go cfg env (t.1.registry.map (fun kv => kv.1)) t.1
  let h := hedge_if_empty cfg b.1 env.bootEnv
  (h.1, t.2 ++ b.2 ++ h.2)

/-- One iteration of the `while True` loop of `run()` (connection handling and
logging aside): the profit-target check (cancel everything, close all
positions, clear the registry, reset the equity baseline, re-bootstrap, and
`continue`), the max-loss check (flatten and `sys.exit` — final `Bool`
`false`), and otherwise the core trading logic.  The returned `Bool` is
whether the process keeps looping. -/
def runTick (cfg : Config) (g : Globals) (env : TickEnv) : Globals × List Action × Bool :=
  let checked : Option ℚ :=
    if 0 < cfg.profitTargetAmt ∨ 0 < cfg.maxLossAmt then env.equity else none
  match checked with
  | some equity =>
    if 0 < cfg.profitTargetAmt ∧ cfg.profitTargetAmt ≤ equity - g.initial_equity then
      let closeActs : List Action :=
        [.cancelSide none Side.buy, .cancelSide none Side.sell,
         .closeAllPositions "profit_target_close", .clearRegistry]
      let g1 : Globals := { g with
        registry := []
        initial_equity := env.postCloseEquity.getD equity }
      let h := hedge_if_empty cfg g1 env.bootEnv
      (h.1, closeActs ++ h.2, true)
    else if 0 < cfg.maxLossAmt ∧ cfg.maxLossAmt ≤ g.initial_equity - equity then
      (g, [.cancelSide none Side.buy, .cancelSide none Side.sell,
           .closeAllPositions "max_loss_limit_close"], false)
    else
      let c := core_pass cfg g env
      (c.1, c.2, true)
  | none =>
    let c := core_pass cfg g env
    (c.1, c.2, true)

/-- Iterated loop: run one tick per environment, stopping early when a tick
exits the process. -/
def runTicks (cfg : Config) (g : Globals) : List TickEnv → Globals × List Action × Bool
  | [] => (g, [], true)
  | e :: es =>
    let r := runTick cfg g e
    if r.2.2 then
      let rest := runTicks cfg r.1 es
      (rest.1, r.2.1 ++ rest.2.1, rest.2.2)
    else (r.1, r.2.1, false)

/-- Ascending insertion into a sorted list of naturals. -/
def insertSortedNat (n : ℕ) : List ℕ → List ℕ
  | [] => [n]
  | m :: ms => if n ≤ m then n :: m :: ms else m :: insertSortedNat n ms

/-- Ascending insertion sort. -/
def sortNat (l : List ℕ) : List ℕ :=
  l.foldr insertSortedNat []

/-- `sorted(list(set(p.magic for p in positions)))`. -/
def sortedUniqueMagics (positions : List Position) : List ℕ :=
  sortNat ((positions.map (fun p => p.magic)).dedup)

/-- Recover a one-letter grid name from a position comment of the form
`Grid<X>_...` with `X` in `A..Z` (the source's comment parse in
`reconstruct_state_on_restart`). -/
def parseGridName (c : String) : Option Char :=
  if listPrefixOf "Grid".toList c.toList ∧ c.toList.contains '_' then
    let afterGrid := (c.toList.drop 4).takeWhile (fun ch => ch ≠ '_')
    match afterGrid with
    | [ch] => if 'A' ≤ ch ∧ ch ≤ 'Z' then some ch else none
    | _ => none
  else none

/-- Earliest-opened position by the sort key `p.time` (ties keep the earliest
list element, as Python's stable `sorted` does). -/
def earliestByTime : List Position → Option Position
  | [] => none
  | p :: ps =>
    match earliestByTime ps with
    | none => some p
    | some q => if q.time < p.time then some q else some p

/-- The `GridState` that `reconstruct_state_on_restart` rebuilds for the `i`-th
(ascending) magic number: name from a parseable comment else deterministic
fallback; per-side anchor = open price of the earliest non-hedge position;
per-side sequence index = filled grid-tagged non-hedge positions plus live
pending limit orders; per-side capped flag = presence of that side's cap tag;
previous counts = current non-hedge counts. -/
def reconstruct_grid_state (positions : List Position) (pending_orders : List PendingOrder)
    (i : ℕ) (magic : ℕ) : GridState :=
  let grid_name_from_comment :=
    positions.findSome? (fun p => if p.magic == magic then parseGridName p.comment else none)
  let grid_name := grid_name_from_comment.getD (Char.ofNat ('A'.toNat + i % 26))
  let positions_in_grid := positions.filter (fun p => p.magic == magic)
  let buy_positions := positions_in_grid.filter (fun p => p.side == Side.buy)
  let sell_positions := positions_in_grid.filter (fun p => p.side == Side.sell)
  let buy_anchor_price :=
    if buy_positions ≠ [] then
      (earliestByTime (buy_positions.filter (fun p => !isDynamicHedge p))).map
        (fun p => p.price_open)
    else none
  let buy_sequence_index :=
    if buy_positions ≠ [] then
      (buy_positions.filter (fun p =>
        (strContains p.comment "gridbuy" || strContains p.comment "market_fallback") &&
          !isDynamicHedge p)).length +
      (pending_orders.filter (fun o => o.magic == magic && o.side == Side.buy)).length
    else 0
  let sell_anchor_price :=
    if sell_positions ≠ [] then
      (earliestByTime (sell_positions.filter (fun p => !isDynamicHedge p))).map
        (fun p => p.price_open)
    else none
  let sell_sequence_index :=
    if sell_positions ≠ [] then
      (sell_positions.filter (fun p =>
        (strContains p.comment "gridsell" || strContains p.comment "market_fallback") &&
          !isDynamicHedge p)).length +
      (pending_orders.filter (fun o => o.magic == magic && o.side == Side.sell)).length
    else 0
  { name := grid_name
    buy_anchor_price := buy_anchor_price
    sell_anchor_price := sell_anchor_price
    buy_sequence_index := buy_sequence_index
    sell_sequence_index := sell_sequence_index
    prev_buy_count := (buy_positions.filter (fun p => !isDynamicHedge p)).length
    prev_sell_count := (sell_positions.filter (fun p => !isDynamicHedge p)).length
    capped_buy := buy_positions.any (fun p => strContains p.comment "CappedBuy")
    capped_sell := sell_positions.any (fun p => strContains p.comment "CappedSell") }

/-- Fold a list of dictionary writes over a registry. -/
def applyUpserts (reg : Registry) : List (ℕ × GridState) → Registry
  | [] => reg
  | kv :: rest => applyUpserts (upsertReg reg kv.1 kv.2) rest

/-- The positions-exist branch of `reconstruct_state_on_restart`: advance the
magic counter past the largest existing magic (when it is at least the base),
then rebuild and register a `GridState` per magic, in ascending magic order. -/
def reconstruct_core (g : Globals) (positions : List Position)
    (pending_orders : List PendingOrder) : Globals :=
  let magics := sortedUniqueMagics positions
  let current_max_magic := magics.foldl max 0
  let next' :=
    if magics ≠ [] ∧ base_magic_number ≤ current_max_magic then current_max_magic + 1
    else g.next_magic_number
  let kvs := magics.enum.map
    (fun im => (im.2, reconstruct_grid_state positions pending_orders im.1 im.2))
  { g with registry := applyUpserts g.registry kvs, next_magic_number := next' }

/-- `reconstruct_state_on_restart()`: rebuild all grid states from the venue's
open positions and pending orders, or — when no position exists at all — run
the bootstrap path `hedge_if_empty` instead. -/
def reconstruct_state_on_restart (cfg : Config) (g : Globals) (positions : List Position)
    (pending_orders : List PendingOrder) (boot : BootEnv) : Globals × List Action :=
  if positions ≠ [] then (reconstruct_core g positions pending_orders, [])
  else hedge_if_empty cfg g boot

/-! ### The v103.4 Fibonacci variant (`mt5bot.py`)

Only the pieces that decide claims about that variant are embedded: the
Fibonacci lot helper and the BUY_LIMIT placement block of its `step_grid`
(the SELL block is its mirror image). -/

/-- `fib` of `mt5bot.py` (`fib 0 = 0`, `fib 1 = fib 2 = 1`, ...). -/
def fib : ℕ → ℕ
  | 0 => 0
  | 1 => 1
  | n + 2 => fib (n + 1) + fib n

/-- Configuration constants of the v103.4 variant that its `step_grid` reads,
plus the instrument metadata. -/
structure Mt5botConfig where
  lotSmall : ℚ
  fibLimit : ℕ
  dynamicMultiplier : ℚ
  gridStepPips : ℚ
  dynamicStepPips : ℚ
  dynamicPositionsTrigger : ℕ
  maxPendingGridOrdersPerSide : ℕ
  digits : ℕ
  point : ℚ
  volumeStep : ℚ
  volumeMin : ℚ
  volumeMax : ℚ
  lotMax : ℚ
deriving DecidableEq, Repr

/-- The BUY-side state of the v103.4 variant (module-level globals
`buy_fib_index`, `last_buy_lot`, `next_buy_px`). -/
structure Mt5botBuySide where
  buy_fib_index : ℕ
  last_buy_lot : ℚ
  next_buy_px : Option ℚ
deriving DecidableEq, Repr

/-- The BUY_LIMIT block of `step_grid` in `mt5bot.py`: skip when there is no
target, the pending cap is reached, or an order already sits near the target;
otherwise attempt one limit order at `next_buy_px` with the next Fibonacci
(or dynamic-multiplier) lot.  On success advance the Fibonacci index, the last
lot, and the target by one grid step; on an invalid-price rejection (retcode
10015) leave the Fibonacci index alone but advance the target by one grid
step; on any other failure change nothing. -/
def mt5bot_step_grid_buy (cfg : Mt5botConfig) (st : Mt5botBuySide)
    (buy_positions_count : ℕ) (current_pending_buy_limits : ℕ)
    (existing_order_near_target : Bool) (result : PlaceResult) : Mt5botBuySide :=
  match st.next_buy_px with
  | none => st
  | some target =>
    if cfg.maxPendingGridOrdersPerSide ≤ current_pending_buy_limits then st
    else if existing_order_near_target then st
    else
      let temp_buy_fib_index := st.buy_fib_index + 1
      let raw_lot :=
        if temp_buy_fib_index ≤ cfg.fibLimit then cfg.lotSmall * (fib temp_buy_fib_index : ℚ)
        else st.last_buy_lot * cfg.dynamicMultiplier
      let current_buy_lot :=
        adjust_lot_raw cfg.volumeStep cfg.volumeMin cfg.volumeMax cfg.lotMax raw_lot
      match result with
      | .done =>
        let gap_pips :=
          if cfg.dynamicPositionsTrigger ≤ buy_positions_count + 1 then cfg.dynamicStepPips
          else cfg.gridStepPips
        { buy_fib_index := temp_buy_fib_index
          last_buy_lot := current_buy_lot
          next_buy_px := some (roundDp cfg.digits
            (target - gap_pips * pip_of_digits cfg.digits cfg.point)) }
      | .invalidPrice =>
        let gap_pips :=
          if cfg.dynamicPositionsTrigger ≤ buy_positions_count then cfg.dynamicStepPips
          else cfg.gridStepPips
        { st with next_buy_px := some (roundDp cfg.digits
            (target - gap_pips * pip_of_digits cfg.digits cfg.point)) }
      | .fail => st

/-! ### Concrete fixtures (source defaults) used by witnesses and
counterexamples -/

/-- The hard-coded `GRID_LOT_SEQUENCE` of the v110.11 source (28 levels). -/
def GRID_LOT_SEQUENCE : List ℚ :=
  [0.01, 0.01, 0.02, 0.03, 0.03, 0.04, 0.06, 0.08, 0.10, 0.14, 0.18, 0.24, 0.31,
   0.41, 0.55, 0.72, 0.95, 1.26, 1.67, 2.2, 2.91, 3.85, 5.09, 6.72, 8.89, 11.75,
   15.53, 20.0]

/-- The v110.11 source's default configuration (env defaults), on a 2-digit
instrument with 0.01 volume step. -/
def defaultConfig : Config :=
  { lotSmall := 0.01
    lotMax := 20
    gridLotSequence := GRID_LOT_SEQUENCE
    gridStepPips := 100
    dynamicStepPips := 120
    dynamicPositionsTrigger := 25
    maxPositions := 60
    profitTargetAmt := 1000
    maxLossAmt := 0
    maxPendingGridOrdersPerSide := 2
    maxActiveGrids := 2
    enableTradingHours := false
    tradingStartTime := none
    tradingEndTime := none
    digits := 2
    point := 0.01
    volumeStep := 0.01
    volumeMin := 0.01
    volumeMax := 20 }

/-! ### Claim C10: the trading-session check -/

/-- C10.  The trading-session check returns true whenever the trading-hours
feature is disabled or the server time is unavailable; when enabled with
`start ≤ end` it returns true exactly when `start ≤ t < end`; and when
`start > end` (overnight wrap) exactly when `t ≥ start ∨ t < end`. -/
theorem trading_session_characterization :
    (∀ cfg : Config, ∀ t : Option ℕ, cfg.enableTradingHours = false ∨ t = none →
      is_trading_session_active cfg t = true) ∧
    (∀ cfg : Config, ∀ s e t : ℕ, cfg.enableTradingHours = true →
      cfg.tradingStartTime = some s → cfg.tradingEndTime = some e → s ≤ e →
      (is_trading_session_active cfg (some t) = true ↔ s ≤ t ∧ t < e)) ∧
    (∀ cfg : Config, ∀ s e t : ℕ, cfg.enableTradingHours = true →
      cfg.tradingStartTime = some s → cfg.tradingEndTime = some e → e < s →
      (is_trading_session_active cfg (some t) = true ↔ s ≤ t ∨ t < e)) := by
  refine ⟨?_, ?_, ?_⟩
  · rintro cfg t (h | rfl)
    · simp [is_trading_session_active, h]
    · unfold is_trading_session_active
      cases cfg.enableTradingHours <;> cases cfg.tradingStartTime <;>
        cases cfg.tradingEndTime <;> simp
  · intro cfg s e t he hs hend hle
    simp [is_trading_session_active, he, hs, hend, if_pos hle]
  · intro cfg s e t he hs hend hlt
    simp [is_trading_session_active, he, hs, hend, if_neg (by omega : ¬ s ≤ e)]

/-- Configuration with a 09:00–17:00 UTC trading window. -/
def dayHoursConfig : Config :=
  { defaultConfig with
    enableTradingHours := true
    tradingStartTime := some 32400
    tradingEndTime := some 61200 }

/-- Configuration with a 22:00–02:00 UTC (overnight) trading window. -/
def nightHoursConfig : Config :=
  { defaultConfig with
    enableTradingHours := true
    tradingStartTime := some 79200
    tradingEndTime := some 7200 }

/-- Witness for C10 on concrete inputs: disabled hours ⇒ active; a 09:00–17:00
window at 10:00 ⇒ active; a 22:00–02:00 overnight window at 23:00 ⇒ active. -/
theorem trading_session_characterization_witness :
    is_trading_session_active defaultConfig (some 36000) = true ∧
    is_trading_session_active dayHoursConfig (some 36000) = true ∧
    is_trading_session_active nightHoursConfig (some 82800) = true := by
  refine ⟨?_, ?_, ?_⟩
  · exact trading_session_characterization.1 defaultConfig (some 36000) (Or.inl rfl)
  · exact (trading_session_characterization.2.1 _ 32400 61200 36000 rfl rfl rfl
      (by norm_num)).2 (by omega)
  · exact (trading_session_characterization.2.2 _ 79200 7200 82800 rfl rfl rfl
      (by norm_num)).2 (by omega)

/-! ### Claim C1: pending-order prices follow the anchor-offset formula -/

/-- Every limit order emitted by one side's population loop is priced at
`anchor ∓ (k+1) · step(observed count) · pip`, rounded to the instrument
precision. -/
theorem stepGridSide_price (cfg : Config) (magic : ℕ) (s : Side) (a : ℚ) :
    ∀ (evs : List PopEvent) (idx pending : ℕ) (m' : ℕ) (s' : Side) (k : ℕ)
      (price lot : ℚ) (n : ℕ),
      Action.placeLimit m' s' k price lot n ∈ (stepGridSide cfg magic s a idx pending evs).2 →
      m' = magic ∧ s' = s ∧
        price = roundDp cfg.digits
          (applyOffset s a (((k : ℚ) + 1) * stepPipsFor cfg n * pip_val cfg)) := by
  intro evs
  induction evs with
  | nil => intro idx pending m' s' k price lot n h; simp [stepGridSide] at h
  | cons e rest ih =>
    intro idx pending m' s' k price lot n h
    rw [stepGridSide] at h
    by_cases hp : pending < cfg.maxPendingGridOrdersPerSide
    · rw [if_pos hp] at h
      by_cases hi : idx < cfg.gridLotSequence.length
      · rw [if_pos hi] at h
        cases hr : e.result with
        | done =>
          rw [hr] at h
          simp only [List.mem_cons] at h
          rcases h with h | h
          · cases h
            exact ⟨rfl, rfl, rfl⟩
          · exact ih (idx + 1) (pending + 1) m' s' k price lot n h
        | invalidPrice => rw [hr] at h; simp at h
        | fail => rw [hr] at h; simp at h
      · rw [if_neg hi] at h; simp at h
    · rw [if_neg hp] at h; simp at h

/-- Everything true of a limit order that escapes the per-side guard: it
belongs to the given basket and side, the side was not capped, its anchor was
set, and the price follows the anchor-offset formula. -/
theorem populate_side_mem (cfg : Config) (magic : ℕ) (s : Side) (capped : Bool)
    (anchor : Option ℚ) (idx pending : ℕ) (evs : List PopEvent)
    (m' : ℕ) (s' : Side) (k : ℕ) (price lot : ℚ) (n : ℕ)
    (h : Action.placeLimit m' s' k price lot n ∈
      (populate_side cfg magic s capped anchor idx pending evs).2) :
    m' = magic ∧ s' = s ∧ capped = false ∧
      ∃ a, anchor = some a ∧
        price = roundDp cfg.digits
          (applyOffset s a (((k : ℚ) + 1) * stepPipsFor cfg n * pip_val cfg)) := by
  unfold populate_side at h
  by_cases hc : capped = false
  · rw [if_pos hc] at h
    cases ha : anchor with
    | none => rw [ha] at h; simp at h
    | some a =>
      rw [ha] at h
      obtain ⟨h1, h2, h3⟩ := stepGridSide_price cfg magic s a evs idx pending
        m' s' k price lot n h
      exact ⟨h1, h2, hc, a, rfl, h3⟩
  · rw [if_neg hc] at h; simp at h

/-- When the population pass is not skipped, `step_grid` is exactly the two
per-side loops. -/
theorem step_grid_run (cfg : Config) (magic : ℕ) (gs : GridState) (env : StepEnv)
    (h1 : ¬ cfg.maxPositions ≤ env.allPositions.length)
    (h2 : sessionBlocks cfg env.serverTime = false) :
    step_grid cfg magic gs env =
      ({ gs with
          buy_sequence_index := (populate_side cfg magic Side.buy gs.capped_buy
            gs.buy_anchor_price gs.buy_sequence_index
            (pending_limit_count env magic Side.buy) env.buyEvents).1
          sell_sequence_index := (populate_side cfg magic Side.sell gs.capped_sell
            gs.sell_anchor_price gs.sell_sequence_index
            (pending_limit_count env magic Side.sell) env.sellEvents).1 },
        (populate_side cfg magic Side.buy gs.capped_buy gs.buy_anchor_price
          gs.buy_sequence_index (pending_limit_count env magic Side.buy) env.buyEvents).2 ++
        (populate_side cfg magic Side.sell gs.capped_sell gs.sell_anchor_price
          gs.sell_sequence_index (pending_limit_count env magic Side.sell) env.sellEvents).2) := by
  unfold step_grid
  rw [if_neg h1, if_neg (by simp [h2])]

/-- `step_grid` does nothing when the global position cap is reached or the
trading session blocks placement. -/
theorem step_grid_skip (cfg : Config) (magic : ℕ) (gs : GridState) (env : StepEnv)
    (h : cfg.maxPositions ≤ env.allPositions.length ∨
      sessionBlocks cfg env.serverTime = true) :
    step_grid cfg magic gs env = (gs, []) := by
  unfold step_grid
  rcases h with h | h
  · rw [if_pos h]
  · by_cases h1 : cfg.maxPositions ≤ env.allPositions.length
    · rw [if_pos h1]
    · rw [if_neg h1, if_pos h]

/-- C1.  For every basket with a non-null anchor on a side and every
progression index `k` at which `step_grid` places a pending limit order, the
order's price equals the side's anchor minus (BUY) / plus (SELL)
`(k+1) · step · pip`, rounded to the instrument precision, where the step is
the dynamic one when the side's observed open-position count reaches the
trigger threshold and the static one otherwise. -/
theorem grid_limit_price_formula (cfg : Config) (magic : ℕ) (gs : GridState)
    (env : StepEnv) (s : Side) (k : ℕ) (price lot : ℚ) (n : ℕ)
    (hmem : Action.placeLimit magic s k price lot n ∈ (step_grid cfg magic gs env).2) :
    (s = Side.buy → ∃ a, gs.buy_anchor_price = some a ∧
      price = roundDp cfg.digits (a - ((k : ℚ) + 1) * stepPipsFor cfg n * pip_val cfg)) ∧
    (s = Side.sell → ∃ a, gs.sell_anchor_price = some a ∧
      price = roundDp cfg.digits (a + ((k : ℚ) + 1) * stepPipsFor cfg n * pip_val cfg)) := by
  by_cases h1 : cfg.maxPositions ≤ env.allPositions.length
  · rw [step_grid_skip cfg magic gs env (Or.inl h1)] at hmem; simp at hmem
  by_cases h2 : sessionBlocks cfg env.serverTime = true
  · rw [step_grid_skip cfg magic gs env (Or.inr h2)] at hmem; simp at hmem
  rw [step_grid_run cfg magic gs env h1 (by simpa using h2)] at hmem
  simp only [List.mem_append] at hmem
  rcases hmem with hmem | hmem
  · obtain ⟨-, hside, -, a, ha, hprice⟩ := populate_side_mem cfg magic Side.buy
      gs.capped_buy gs.buy_anchor_price gs.buy_sequence_index _ env.buyEvents
      magic s k price lot n hmem
    subst hside
    exact ⟨fun _ => ⟨a, ha, by simpa [applyOffset] using hprice⟩,
      fun hs => absurd hs (by simp)⟩
  · obtain ⟨-, hside, -, a, ha, hprice⟩ := populate_side_mem cfg magic Side.sell
      gs.capped_sell gs.sell_anchor_price gs.sell_sequence_index _ env.sellEvents
      magic s k price lot n hmem
    subst hside
    exact ⟨fun hs => absurd hs (by simp),
      fun _ => ⟨a, ha, by simpa [applyOffset] using hprice⟩⟩

/-- A one-entry grid whose two anchors sit at 2000 (as after a paired hedge
filled at 2000/2000). -/
def anchorGS : GridState := freshGridState 'A' 2000 2000

/-- A populator environment: empty venue, one successful BUY-side placement
attempt, no SELL-side attempts. -/
def oneBuyDoneEnv : StepEnv :=
  { allPositions := []
    serverTime := none
    pendingOrders := []
    buyEvents := [{ positions := [], result := .done }]
    sellEvents := [] }

set_option maxRecDepth 8000 in
/-- Witness for C1: with anchor 2000, pip 0.01 and static step 100 pips, the
level-0 BUY limit is placed at 1999, and that price equals the claimed
formula. -/
theorem grid_limit_price_formula_witness :
    Action.placeLimit 12345 Side.buy 0 1999 (1/100) 0 ∈
        (step_grid defaultConfig 12345 anchorGS oneBuyDoneEnv).2 ∧
      (1999 : ℚ) = roundDp defaultConfig.digits
        (2000 - ((0 : ℚ) + 1) * stepPipsFor defaultConfig 0 * pip_val defaultConfig) := by
  have hmem : Action.placeLimit 12345 Side.buy 0 1999 (1/100) 0 ∈
      (step_grid defaultConfig 12345 anchorGS oneBuyDoneEnv).2 := by
    norm_num [step_grid, populate_side, pending_limit_count, stepGridSide, anchorGS,
      oneBuyDoneEnv, defaultConfig, freshGridState, sessionBlocks,
      is_trading_session_active, sideOrderCount, stepPipsFor, applyOffset, pip_val,
      pip_of_digits, roundDp, pyRoundInt, adjust_lot, adjust_lot_raw, volumePrecision,
      floorLog10Fuel, GRID_LOT_SEQUENCE, Int.floor_eq_iff]
  refine ⟨hmem, ?_⟩
  obtain ⟨a, ha, hp⟩ := (grid_limit_price_formula defaultConfig 12345 anchorGS
    oneBuyDoneEnv Side.buy 0 1999 (1/100) 0 hmem).1 rfl
  have ha' : (2000 : ℚ) = a := by
    have h := ha
    simp [anchorGS, freshGridState] at h
    exact h
  rw [← ha'] at hp
  exact hp

/-! ### Claim C4: sequence-index bounds -/

/-- The population loop never advances a side's sequence index beyond the lot
table length. -/
theorem stepGridSide_index_le (cfg : Config) (magic : ℕ) (s : Side) (a : ℚ) :
    ∀ (evs : List PopEvent) (idx pending : ℕ),
      idx ≤ cfg.gridLotSequence.length →
      (stepGridSide cfg magic s a idx pending evs).1 ≤ cfg.gridLotSequence.length := by
  intro evs
  induction evs with
  | nil => intro idx pending h; simpa [stepGridSide] using h
  | cons e rest ih =>
    intro idx pending h
    rw [stepGridSide]
    by_cases hp : pending < cfg.maxPendingGridOrdersPerSide
    · rw [if_pos hp]
      by_cases hi : idx < cfg.gridLotSequence.length
      · rw [if_pos hi]
        cases hr : e.result <;> simp only
        · exact ih (idx + 1) (pending + 1) hi
        · exact h
        · exact h
      · rw [if_neg hi]; exact h
    · rw [if_neg hp]; exact h

/-- Every limit order the population loop places sits at an index inside the
lot table. -/
theorem stepGridSide_index_lt (cfg : Config) (magic : ℕ) (s : Side) (a : ℚ) :
    ∀ (evs : List PopEvent) (idx pending : ℕ) (m' : ℕ) (s' : Side) (k : ℕ)
      (price lot : ℚ) (n : ℕ),
      Action.placeLimit m' s' k price lot n ∈ (stepGridSide cfg magic s a idx pending evs).2 →
      k < cfg.gridLotSequence.length := by
  intro evs
  induction evs with
  | nil => intro idx pending m' s' k price lot n h; simp [stepGridSide] at h
  | cons e rest ih =>
    intro idx pending m' s' k price lot n h
    rw [stepGridSide] at h
    by_cases hp : pending < cfg.maxPendingGridOrdersPerSide
    · rw [if_pos hp] at h
      by_cases hi : idx < cfg.gridLotSequence.length
      · rw [if_pos hi] at h
        cases hr : e.result with
        | done =>
          rw [hr] at h
          simp only [List.mem_cons] at h
          rcases h with h | h
          · cases h; exact hi
          · exact ih (idx + 1) (pending + 1) m' s' k price lot n h
        | invalidPrice => rw [hr] at h; simp at h
        | fail => rw [hr] at h; simp at h
      · rw [if_neg hi] at h; simp at h
    · rw [if_neg hp] at h; simp at h

/-- Once a side's index has reached the end of the lot table, its population
loop does nothing at all. -/
theorem stepGridSide_exhausted (cfg : Config) (magic : ℕ) (s : Side) (a : ℚ)
    (evs : List PopEvent) (idx pending : ℕ)
    (h : cfg.gridLotSequence.length ≤ idx) :
    stepGridSide cfg magic s a idx pending evs = (idx, []) := by
  cases evs with
  | nil => rw [stepGridSide]
  | cons e rest =>
    rw [stepGridSide]
    by_cases hp : pending < cfg.maxPendingGridOrdersPerSide
    · rw [if_pos hp, if_neg (by omega : ¬ idx < cfg.gridLotSequence.length)]
    · rw [if_neg hp]

/-- The per-side guard also never advances an index beyond the lot table. -/
theorem populate_side_index_le (cfg : Config) (magic : ℕ) (s : Side) (capped : Bool)
    (anchor : Option ℚ) (idx pending : ℕ) (evs : List PopEvent)
    (h : idx ≤ cfg.gridLotSequence.length) :
    (populate_side cfg magic s capped anchor idx pending evs).1 ≤
      cfg.gridLotSequence.length := by
  unfold populate_side
  by_cases hc : capped = false
  · rw [if_pos hc]
    cases anchor with
    | none => exact h
    | some a => exact stepGridSide_index_le cfg magic s a evs idx pending h
  · rw [if_neg hc]; exact h

/-- A side whose index has reached the end of the lot table is left untouched
by the per-side guard. -/
theorem populate_side_exhausted (cfg : Config) (magic : ℕ) (s : Side) (capped : Bool)
    (anchor : Option ℚ) (idx pending : ℕ) (evs : List PopEvent)
    (h : cfg.gridLotSequence.length ≤ idx) :
    populate_side cfg magic s capped anchor idx pending evs = (idx, []) := by
  unfold populate_side
  by_cases hc : capped = false
  · rw [if_pos hc]
    cases anchor with
    | none => rfl
    | some a => exact stepGridSide_exhausted cfg magic s a evs idx pending h
  · rw [if_neg hc]

/-- C4 (amended).  During population a side's sequence index never exceeds the
lot-table length, every placed order's progression index lies strictly inside
the table, and a side whose index has reached the end places no further
orders.  (The index produced by startup reconstruction is *not* so bounded —
see the counterexample.) -/
theorem sequence_index_bounds (cfg : Config) (magic : ℕ) (gs : GridState) (env : StepEnv) :
    (gs.buy_sequence_index ≤ cfg.gridLotSequence.length →
      (step_grid cfg magic gs env).1.buy_sequence_index ≤ cfg.gridLotSequence.length) ∧
    (gs.sell_sequence_index ≤ cfg.gridLotSequence.length →
      (step_grid cfg magic gs env).1.sell_sequence_index ≤ cfg.gridLotSequence.length) ∧
    (∀ (m' : ℕ) (s : Side) (k : ℕ) (price lot : ℚ) (n : ℕ),
      Action.placeLimit m' s k price lot n ∈ (step_grid cfg magic gs env).2 →
      k < cfg.gridLotSequence.length) ∧
    (cfg.gridLotSequence.length ≤ gs.buy_sequence_index →
      ∀ (k : ℕ) (price lot : ℚ) (n : ℕ),
        Action.placeLimit magic Side.buy k price lot n ∉ (step_grid cfg magic gs env).2) ∧
    (cfg.gridLotSequence.length ≤ gs.sell_sequence_index →
      ∀ (k : ℕ) (price lot : ℚ) (n : ℕ),
        Action.placeLimit magic Side.sell k price lot n ∉ (step_grid cfg magic gs env).2) := by
  by_cases h1 : cfg.maxPositions ≤ env.allPositions.length
  · rw [step_grid_skip cfg magic gs env (Or.inl h1)]
    exact ⟨fun h => h, fun h => h, by intro _ _ _ _ _ _ h; simp at h,
      by intro _ _ _ _ _ h; simp at h, by intro _ _ _ _ _ h; simp at h⟩
  by_cases h2 : sessionBlocks cfg env.serverTime = true
  · rw [step_grid_skip cfg magic gs env (Or.inr h2)]
    exact ⟨fun h => h, fun h => h, by intro _ _ _ _ _ _ h; simp at h,
      by intro _ _ _ _ _ h; simp at h, by intro _ _ _ _ _ h; simp at h⟩
  rw [step_grid_run cfg magic gs env h1 (by simpa using h2)]
  refine ⟨?_, ?_, ?_, ?_, ?_⟩
  · intro h
    exact populate_side_index_le cfg magic Side.buy gs.capped_buy gs.buy_anchor_price
      gs.buy_sequence_index _ env.buyEvents h
  · intro h
    exact populate_side_index_le cfg magic Side.sell gs.capped_sell gs.sell_anchor_price
      gs.sell_sequence_index _ env.sellEvents h
  · intro m' s k price lot n h
    simp only [List.mem_append] at h
    rcases h with h | h
    · unfold populate_side at h
      by_cases hc : gs.capped_buy = false
      · rw [if_pos hc] at h
        cases ha : gs.buy_anchor_price with
        | none => rw [ha] at h; simp at h
        | some a =>
          rw [ha] at h
          exact stepGridSide_index_lt cfg magic Side.buy a env.buyEvents
            gs.buy_sequence_index _ m' s k price lot n h
      · rw [if_neg hc] at h; simp at h
    · unfold populate_side at h
      by_cases hc : gs.capped_sell = false
      · rw [if_pos hc] at h
        cases ha : gs.sell_anchor_price with
        | none => rw [ha] at h; simp at h
        | some a =>
          rw [ha] at h
          exact stepGridSide_index_lt cfg magic Side.sell a env.sellEvents
            gs.sell_sequence_index _ m' s k price lot n h
      · rw [if_neg hc] at h; simp at h
  · intro hend k price lot n h
    simp only [List.mem_append] at h
    rcases h with h | h
    · rw [populate_side_exhausted cfg magic Side.buy gs.capped_buy gs.buy_anchor_price
        gs.buy_sequence_index _ env.buyEvents hend] at h
      simp at h
    · obtain ⟨-, hside, -⟩ := populate_side_mem cfg magic Side.sell gs.capped_sell
        gs.sell_anchor_price gs.sell_sequence_index _ env.sellEvents
        magic Side.buy k price lot n h
      cases hside
  · intro hend k price lot n h
    simp only [List.mem_append] at h
    rcases h with h | h
    · obtain ⟨-, hside, -⟩ := populate_side_mem cfg magic Side.buy gs.capped_buy
        gs.buy_anchor_price gs.buy_sequence_index _ env.buyEvents
        magic Side.sell k price lot n h
      cases hside
    · rw [populate_side_exhausted cfg magic Side.sell gs.capped_sell gs.sell_anchor_price
        gs.sell_sequence_index _ env.sellEvents hend] at h
      simp at h

/-- Witness for C4 on the concrete fixture: after the one successful level-0
placement the BUY index is still within the 28-entry lot table. -/
theorem sequence_index_bounds_witness :
    (step_grid defaultConfig 12345 anchorGS oneBuyDoneEnv).1.buy_sequence_index ≤
      defaultConfig.gridLotSequence.length :=
  (sequence_index_bounds defaultConfig 12345 anchorGS oneBuyDoneEnv).1 (by decide)

/-- A grid-tagged BUY position used to stress startup reconstruction. -/
def mkGridBuyPos (i : ℕ) : Position :=
  { ticket := i
    magic := 12345
    side := Side.buy
    volume := 0.01
    price_open := 2000
    tp := 0
    sl := 0
    comment := "GridA_gridbuy"
    time := i
    time_msc := 0 }

/-- 29 filled grid-tagged BUY positions: one more than the lot table holds. -/
def positionsOverTable : List Position :=
  (List.range 29).map mkGridBuyPos

set_option maxRecDepth 8000 in
/-- Counterexample for C4 as stated: startup reconstruction sets the BUY
sequence index to filled-plus-pending counts without clamping, so 29
grid-tagged BUY positions yield index 29, which exceeds the 28-entry lot
table's maximum valid index. -/
theorem sequence_index_reconstruction_counterexample :
    defaultConfig.gridLotSequence.length <
      (reconstruct_grid_state positionsOverTable [] 0 12345).buy_sequence_index := by
  decide

/-! ### Claim C8: invalid-price rejection handling -/

/-- C8 (amended).  In the v110.11 populator an invalid-price rejection
(retcode 10015) stops the side for the tick without incrementing its sequence
index, and a later pass that observes the same side count attempts the same
index at the same price.  In the v103.4 variant the Fibonacci index is
likewise not incremented, but the target price is advanced one grid step, so
the next tick retries the *next* level rather than the same one. -/
theorem invalid_price_retry (cfg : Config) (magic : ℕ) (s : Side) (a : ℚ)
    (idx pending : ℕ) (e : PopEvent) (rest : List PopEvent)
    (hp : pending < cfg.maxPendingGridOrdersPerSide)
    (hi : idx < cfg.gridLotSequence.length)
    (hr : e.result = PlaceResult.invalidPrice) :
    (stepGridSide cfg magic s a idx pending (e :: rest) =
      (idx, [.limitRejected magic s idx
        (roundDp cfg.digits (applyOffset s a
          (((idx : ℚ) + 1) * stepPipsFor cfg (sideOrderCount e.positions magic s) *
            pip_val cfg))) true])) ∧
    (∀ (pending' : ℕ) (e' : PopEvent) (rest' : List PopEvent),
      pending' < cfg.maxPendingGridOrdersPerSide →
      e'.result = PlaceResult.done →
      sideOrderCount e'.positions magic s = sideOrderCount e.positions magic s →
      ((stepGridSide cfg magic s a idx pending' (e' :: rest')).2).head? =
        some (.placeLimit magic s idx
          (roundDp cfg.digits (applyOffset s a
            (((idx : ℚ) + 1) * stepPipsFor cfg (sideOrderCount e.positions magic s) *
              pip_val cfg)))
          (adjust_lot cfg (cfg.gridLotSequence.getD idx 0))
          (sideOrderCount e.positions magic s))) ∧
    (∀ (cfgM : Mt5botConfig) (st : Mt5botBuySide) (target : ℚ) (cnt pend : ℕ),
      st.next_buy_px = some target →
      pend < cfgM.maxPendingGridOrdersPerSide →
      mt5bot_step_grid_buy cfgM st cnt pend false PlaceResult.invalidPrice =
        { st with next_buy_px := some (roundDp cfgM.digits (target -
            (if cfgM.dynamicPositionsTrigger ≤ cnt then cfgM.dynamicStepPips
             else cfgM.gridStepPips) * pip_of_digits cfgM.digits cfgM.point)) }) := by
  refine ⟨?_, ?_, ?_⟩
  · rw [stepGridSide, if_pos hp, if_pos hi, hr]
  · intro pending' e' rest' hp' hr' hcnt
    rw [stepGridSide, if_pos hp', if_pos hi, hr', hcnt]
    rfl
  · intro cfgM st target cnt pend hpx hpend
    have h1 : ¬ cfgM.maxPendingGridOrdersPerSide ≤ pend := by omega
    simp [mt5bot_step_grid_buy, hpx, h1]

/-- The v103.4 variant's default configuration on a 2-digit instrument. -/
def mt5botDefaultConfig : Mt5botConfig :=
  { lotSmall := 0.01
    fibLimit := 13
    dynamicMultiplier := 1.25
    gridStepPips := 50
    dynamicStepPips := 50
    dynamicPositionsTrigger := 13
    maxPendingGridOrdersPerSide := 1
    digits := 2
    point := 0.01
    volumeStep := 0.01
    volumeMin := 0.01
    volumeMax := 20
    lotMax := 20 }

/-- A v103.4 BUY-side state targeting the level at 2000. -/
def mt5botBuyStateAt2000 : Mt5botBuySide :=
  { buy_fib_index := 1
    last_buy_lot := 0.01
    next_buy_px := some 2000 }

/-- Counterexample for C8 as stated: in the v103.4 variant an invalid-price
rejection at target 2000 leaves the Fibonacci index alone but moves the
target to 1999.5 (one 50-pip step for a 0.01 pip), so the next tick does
*not* retry the same price level. -/
theorem invalid_price_retry_counterexample :
    (mt5bot_step_grid_buy mt5botDefaultConfig mt5botBuyStateAt2000 1 0 false
        PlaceResult.invalidPrice).buy_fib_index = mt5botBuyStateAt2000.buy_fib_index ∧
    (mt5bot_step_grid_buy mt5botDefaultConfig mt5botBuyStateAt2000 1 0 false
        PlaceResult.invalidPrice).next_buy_px ≠ mt5botBuyStateAt2000.next_buy_px := by
  constructor
  · rfl
  · norm_num [mt5bot_step_grid_buy, mt5botDefaultConfig, mt5botBuyStateAt2000,
      roundDp, pyRoundInt, pip_of_digits]

/-- A population event whose order attempt is rejected with retcode 10015. -/
def invalidPriceEvent : PopEvent :=
  { positions := [], result := .invalidPrice }

/-- Witness for C8 at concrete inputs: the loop at index 0 under an
invalid-price rejection stops with the index still 0 and only the rejected
attempt recorded. -/
theorem invalid_price_retry_witness :
    stepGridSide defaultConfig 12345 Side.buy 2000 0 0 [invalidPriceEvent] =
      (0, [.limitRejected 12345 Side.buy 0
        (roundDp defaultConfig.digits (applyOffset Side.buy 2000
          (((0 : ℚ) + 1) *
            stepPipsFor defaultConfig (sideOrderCount invalidPriceEvent.positions 12345 Side.buy) *
            pip_val defaultConfig))) true]) :=
  (invalid_price_retry defaultConfig 12345 Side.buy 2000 0 0 invalidPriceEvent []
    (by decide) (by decide) rfl).1

/-! ### Claim C5: side-emptying closure resets and re-anchors that side -/

/-- C5.  For an un-capped basket, when a side's non-hedge count strictly
decreased to zero while the other side still holds positions (and the trading
session permits), `handle_closed_hedge` cancels that side's pending orders,
places a solo market order on that side, and on its success sets that side's
anchor to the fill price and resets its sequence index to 0, leaving the
other side's anchor and sequence index unchanged. -/
theorem side_empty_reset (cfg : Config) (magic : ℕ) (gs : GridState) (env : ReconEnv) :
    (∀ fill : ℚ, gs.capped_buy = false →
      current_count env magic Side.buy < gs.prev_buy_count →
      current_count env magic Side.buy = 0 →
      0 < current_count env magic Side.sell →
      sessionBlocks cfg env.serverTime = false →
      env.rehedgeBuyFill = some fill →
      handle_closed_hedge cfg magic gs env =
        (some { gs with
            buy_anchor_price := some fill
            buy_sequence_index := 0
            prev_buy_count := 0
            prev_sell_count := current_count env magic Side.sell },
         [.cancelSide (some magic) Side.buy,
          .placeMarket magic Side.buy cfg.lotSmall 0 none
            (format_mt5_comment gs.name "re_hedge_buy")])) ∧
    (∀ fill : ℚ, gs.capped_sell = false →
      current_count env magic Side.sell < gs.prev_sell_count →
      current_count env magic Side.sell = 0 →
      0 < current_count env magic Side.buy →
      sessionBlocks cfg env.serverTime = false →
      env.rehedgeSellFill = some fill →
      handle_closed_hedge cfg magic gs env =
        (some { gs with
            sell_anchor_price := some fill
            sell_sequence_index := 0
            prev_buy_count := current_count env magic Side.buy
            prev_sell_count := 0 },
         [.cancelSide (some magic) Side.sell,
          .placeMarket magic Side.sell cfg.lotSmall 0 none
            (format_mt5_comment gs.name "re_hedge_sell")])) := by
  constructor
  · intro fill hcap hdec h0 hsell hsess hfill
    have hne : ¬ env.positions.filter (fun p => p.magic == magic) = [] := by
      intro hemp
      have h : current_count env magic Side.sell = 0 := by
        unfold current_count
        rw [hemp]
        rfl
      omega
    have hdec0 : 0 < gs.prev_buy_count := by omega
    simp [handle_closed_hedge, reset_buy_side, reset_sell_side, hcap, hdec, hdec0, h0,
      hsell, hsess, hfill, hne]
  · intro fill hcap hdec h0 hbuy hsess hfill
    have hne : ¬ env.positions.filter (fun p => p.magic == magic) = [] := by
      intro hemp
      have h : current_count env magic Side.buy = 0 := by
        unfold current_count
        rw [hemp]
        rfl
      omega
    have hdec0 : 0 < gs.prev_sell_count := by omega
    simp [handle_closed_hedge, reset_buy_side, reset_sell_side, hcap, hdec, hdec0, h0,
      hbuy, hsess, hfill, hne]

/-! ### Registry lemmas -/

/-- Replacing the value under key `m'` leaves lookups of other keys alone. -/
theorem lookupReg_map_replace (reg : Registry) (m m' : ℕ) (v : GridState) (h : m ≠ m') :
    lookupReg (reg.map (fun kv => if kv.1 == m' then (m', v) else kv)) m =
      lookupReg reg m := by
  induction reg with
  | nil => rfl
  | cons kv rest ih =>
    by_cases hk : kv.1 == m'
    · have hk' : kv.1 = m' := by simpa using hk
      simp only [List.map_cons, if_pos hk, lookupReg, List.find?]
      have h1 : ((m', v).1 == m) = false := by simp [Ne.symm h]
      have h2 : (kv.1 == m) = false := by simp [hk', Ne.symm h]
      rw [h1, h2]
      exact ih
    · simp only [List.map_cons, if_neg hk, lookupReg, List.find?]
      cases hkm : kv.1 == m
      · exact ih
      · rfl

/-- Replacing the value under a key that is present yields that value. -/
theorem lookupReg_map_replace_self (reg : Registry) (m' : ℕ) (v : GridState)
    (h : reg.any (fun kv => kv.1 == m') = true) :
    lookupReg (reg.map (fun kv => if kv.1 == m' then (m', v) else kv)) m' = some v := by
  induction reg with
  | nil => simp at h
  | cons kv rest ih =>
    by_cases hk : kv.1 == m'
    · simp only [List.map_cons, if_pos hk, lookupReg, List.find?, beq_self_eq_true]
      rfl
    · simp only [List.any_cons, hk, Bool.false_or] at h
      simp only [List.map_cons, if_neg hk, lookupReg, List.find?]
      rw [show (kv.1 == m') = false from by simpa using hk]
      exact ih h

/-- Characterization of a lookup after a dictionary write. -/
theorem lookupReg_upsert (reg : Registry) (m m' : ℕ) (v : GridState) :
    lookupReg (upsertReg reg m' v) m = if m = m' then some v else lookupReg reg m := by
  unfold upsertReg
  by_cases hany : reg.any (fun kv => kv.1 == m') = true
  · rw [if_pos hany]
    by_cases hm : m = m'
    · subst hm
      rw [if_pos rfl]
      exact lookupReg_map_replace_self reg m v hany
    · rw [if_neg hm]
      exact lookupReg_map_replace reg m m' v hm
  · rw [if_neg hany]
    have hnone : reg.find? (fun kv => kv.1 == m') = none := by
      rw [List.find?_eq_none]
      intro kv hkv hp
      exact hany (List.any_eq_true.mpr ⟨kv, hkv, hp⟩)
    by_cases hm : m = m'
    · subst hm
      rw [if_pos rfl]
      unfold lookupReg
      rw [List.find?_append, hnone]
      simp
    · rw [if_neg hm]
      unfold lookupReg
      rw [List.find?_append]
      cases hfind : reg.find? (fun kv => kv.1 == m)
      · simp [Ne.symm hm]
      · simp

/-- Lookups of other keys survive a deletion. -/
theorem lookupReg_remove_ne (reg : Registry) (m m' : ℕ) (h : m ≠ m') :
    lookupReg (removeReg reg m') m = lookupReg reg m := by
  induction reg with
  | nil => rfl
  | cons kv rest ih =>
    by_cases hk : kv.1 = m'
    · simp only [removeReg, List.filter]
      rw [show (kv.1 != m') = false from by simp [hk]]
      simp only [lookupReg, List.find?]
      rw [show (kv.1 == m) = false from by simp [hk, Ne.symm h]]
      exact ih
    · simp only [removeReg, List.filter]
      rw [show (kv.1 != m') = true from by simp [hk]]
      simp only [lookupReg, List.find?]
      cases hkm : kv.1 == m
      · exact ih
      · rfl

/-- A successful lookup means a non-empty registry. -/
theorem lookupReg_ne_nil (reg : Registry) (m : ℕ) (gs : GridState)
    (h : lookupReg reg m = some gs) : reg ≠ [] := by
  intro hemp
  rw [hemp] at h
  simp [lookupReg] at h

/-! ### Claims C7 and C3: the trigger / capping manager -/

/-- What `freeze_grid_and_start_new` does to the frozen basket itself: both
capped flags are set together, and both sides' pending orders are cancelled;
the spawned basket (if any) lives under a fresh magic and does not disturb
the frozen one. -/
theorem freeze_sets_both_flags (cfg : Config) (g : Globals) (magic : ℕ) (gs : GridState)
    (toCap : List Position) (tag : String) (env : TrigEnv)
    (hfresh : magic < g.next_magic_number) :
    lookupReg (freeze_grid_and_start_new cfg g magic gs toCap tag env).1.registry magic =
      some { gs with capped_buy := true, capped_sell := true } ∧
    Action.cancelSide (some magic) Side.buy ∈
      (freeze_grid_and_start_new cfg g magic gs toCap tag env).2 ∧
    Action.cancelSide (some magic) Side.sell ∈
      (freeze_grid_and_start_new cfg g magic gs toCap tag env).2 := by
  unfold freeze_grid_and_start_new
  by_cases hlen : (upsertReg g.registry magic { gs with capped_buy := true, capped_sell := true }).length < cfg.maxActiveGrids
  · rw [if_pos hlen]
    by_cases hsess : sessionBlocks cfg env.serverTime = true
    · rw [if_pos hsess]
      refine ⟨by rw [lookupReg_upsert]; simp, by simp, by simp⟩
    · rw [if_neg hsess]
      cases hb : env.spawnBuyFill with
      | none =>
        cases hs : env.spawnSellFill with
        | none => refine ⟨by rw [lookupReg_upsert]; simp, by simp, by simp⟩
        | some ps => refine ⟨by rw [lookupReg_upsert]; simp, by simp, by simp⟩
      | some pb =>
        cases hs : env.spawnSellFill with
        | none => refine ⟨by rw [lookupReg_upsert]; simp, by simp, by simp⟩
        | some ps =>
          refine ⟨?_, by simp, by simp⟩
          rw [lookupReg_upsert, if_neg (by omega : ¬ magic = g.next_magic_number),
            lookupReg_upsert]
          simp
  · rw [if_neg hlen]
    refine ⟨by rw [lookupReg_upsert]; simp, by simp, by simp⟩

/-- C7.  When the capping hedge market order fails, the basket's `GridState`
and the whole registry are left entirely unchanged by the trigger pass and no
action at all is taken for it (no capped flag, no re-tag, no cancellation, no
spawn), so the trigger re-evaluates identically next tick; and any effect of
the trigger pass at all implies the hedge succeeded. -/
theorem hedge_failure_leaves_basket_untouched (cfg : Config) (g : Globals) (magic : ℕ)
    (gs : GridState) (env : TrigEnv) :
    (gs.capped_buy = false →
      cfg.dynamicPositionsTrigger ≤ (grid_side_positions env magic Side.buy).length →
      cap_candidates env magic Side.buy ≠ [] →
      env.hedgeOk = false →
      trigger_and_cap_basket cfg g magic gs env = (g, [])) ∧
    (¬ (gs.capped_buy = false ∧
        cfg.dynamicPositionsTrigger ≤ (grid_side_positions env magic Side.buy).length) →
      gs.capped_sell = false →
      cfg.dynamicPositionsTrigger ≤ (grid_side_positions env magic Side.sell).length →
      cap_candidates env magic Side.sell ≠ [] →
      env.hedgeOk = false →
      trigger_and_cap_basket cfg g magic gs env = (g, [])) ∧
    (trigger_and_cap_basket cfg g magic gs env ≠ (g, []) → env.hedgeOk = true) := by
  refine ⟨?_, ?_, ?_⟩
  · intro hcap htr hne hfail
    simp [trigger_and_cap_basket, hcap, htr, hne, hfail]
  · intro hnb hcap htr hne hfail
    simp [trigger_and_cap_basket, hnb, hcap, htr, hne, hfail]
  · intro h
    cases hok : env.hedgeOk
    · exfalso
      apply h
      by_cases c1 : gs.capped_buy = false ∧
          cfg.dynamicPositionsTrigger ≤ (grid_side_positions env magic Side.buy).length
      · by_cases c2 : cap_candidates env magic Side.buy = []
        · simp [trigger_and_cap_basket, c1.1, c1.2, c2]
        · simp [trigger_and_cap_basket, c1.1, c1.2, c2, hok]
      · by_cases c3 : gs.capped_sell = false ∧
            cfg.dynamicPositionsTrigger ≤ (grid_side_positions env magic Side.sell).length
        · by_cases c4 : cap_candidates env magic Side.sell = []
          · simp [trigger_and_cap_basket, c1, c3.1, c3.2, c4]
          · simp [trigger_and_cap_basket, c1, c3.1, c3.2, c4, hok]
        · simp [trigger_and_cap_basket, c1, c3]
    · rfl

/-- C3 (amended).  When an un-capped BUY side reaches the trigger and the
hedge order succeeds, the trigger pass submits a SELL market order sized at
half the captured non-hedge volume (size-normalized), with the newest captured
position's positive take-profit as stop-loss (`hedge_sl`), then sets both
capped flags and cancels pending orders on both sides.  The SELL side behaves
symmetrically, but only when the BUY branch did not fire in the same tick
(the source checks BUY first with an exclusive `elif`). -/
theorem trigger_cap_hedge (cfg : Config) (g : Globals) (magic : ℕ) (gs : GridState)
    (env : TrigEnv) (hfresh : magic < g.next_magic_number) :
    (gs.capped_buy = false →
      cfg.dynamicPositionsTrigger ≤ (grid_side_positions env magic Side.buy).length →
      cap_candidates env magic Side.buy ≠ [] →
      env.hedgeOk = true →
      ((trigger_and_cap_basket cfg g magic gs env).2.head? =
        some (.placeMarket magic Side.sell
          (adjust_lot cfg
            (((cap_candidates env magic Side.buy).map (fun p => p.volume)).sum / 2))
          (hedge_sl (cap_candidates env magic Side.buy)) (some 0)
          (format_mt5_comment gs.name "DynamicHedgeSell"))) ∧
      lookupReg (trigger_and_cap_basket cfg g magic gs env).1.registry magic =
        some { gs with capped_buy := true, capped_sell := true } ∧
      Action.cancelSide (some magic) Side.buy ∈ (trigger_and_cap_basket cfg g magic gs env).2 ∧
      Action.cancelSide (some magic) Side.sell ∈ (trigger_and_cap_basket cfg g magic gs env).2) ∧
    (¬ (gs.capped_buy = false ∧
        cfg.dynamicPositionsTrigger ≤ (grid_side_positions env magic Side.buy).length) →
      gs.capped_sell = false →
      cfg.dynamicPositionsTrigger ≤ (grid_side_positions env magic Side.sell).length →
      cap_candidates env magic Side.sell ≠ [] →
      env.hedgeOk = true →
      ((trigger_and_cap_basket cfg g magic gs env).2.head? =
        some (.placeMarket magic Side.buy
          (adjust_lot cfg
            (((cap_candidates env magic Side.sell).map (fun p => p.volume)).sum / 2))
          (hedge_sl (cap_candidates env magic Side.sell)) (some 0)
          (format_mt5_comment gs.name "DynamicHedgeBuy"))) ∧
      lookupReg (trigger_and_cap_basket cfg g magic gs env).1.registry magic =
        some { gs with capped_buy := true, capped_sell := true } ∧
      Action.cancelSide (some magic) Side.buy ∈ (trigger_and_cap_basket cfg g magic gs env).2 ∧
      Action.cancelSide (some magic) Side.sell ∈ (trigger_and_cap_basket cfg g magic gs env).2) := by
  constructor
  · intro hcap htr hne hok
    obtain ⟨hflag, hcb, hcs⟩ := freeze_sets_both_flags cfg g magic gs
      (cap_candidates env magic Side.buy) "CappedBuy" env hfresh
    have heq : trigger_and_cap_basket cfg g magic gs env =
        ((freeze_grid_and_start_new cfg g magic gs
            (cap_candidates env magic Side.buy) "CappedBuy" env).1,
          Action.placeMarket magic Side.sell
            (adjust_lot cfg
              (((cap_candidates env magic Side.buy).map (fun p => p.volume)).sum / 2))
            (hedge_sl (cap_candidates env magic Side.buy)) (some 0)
            (format_mt5_comment gs.name "DynamicHedgeSell") ::
          (freeze_grid_and_start_new cfg g magic gs
            (cap_candidates env magic Side.buy) "CappedBuy" env).2) := by
      simp [trigger_and_cap_basket, hcap, htr, hne, hok]
    rw [heq]
    exact ⟨rfl, hflag, List.mem_cons_of_mem _ hcb, List.mem_cons_of_mem _ hcs⟩
  · intro hnb hcap htr hne hok
    obtain ⟨hflag, hcb, hcs⟩ := freeze_sets_both_flags cfg g magic gs
      (cap_candidates env magic Side.sell) "CappedSell" env hfresh
    have heq : trigger_and_cap_basket cfg g magic gs env =
        ((freeze_grid_and_start_new cfg g magic gs
            (cap_candidates env magic Side.sell) "CappedSell" env).1,
          Action.placeMarket magic Side.buy
            (adjust_lot cfg
              (((cap_candidates env magic Side.sell).map (fun p => p.volume)).sum / 2))
            (hedge_sl (cap_candidates env magic Side.sell)) (some 0)
            (format_mt5_comment gs.name "DynamicHedgeBuy") ::
          (freeze_grid_and_start_new cfg g magic gs
            (cap_candidates env magic Side.sell) "CappedSell" env).2) := by
      simp [trigger_and_cap_basket, hnb, hcap, htr, hne, hok]
    rw [heq]
    exact ⟨rfl, hflag, List.mem_cons_of_mem _ hcb, List.mem_cons_of_mem _ hcs⟩

/-- A configuration whose dynamic-positions trigger is 1, so a single position
trips the cap. -/
def trigTestConfig : Config :=
  { defaultConfig with dynamicPositionsTrigger := 1 }

/-- An un-capped basket with both anchors set and one position seen per side. -/
def preResetGS : GridState :=
  { name := 'A'
    buy_anchor_price := some 2000
    sell_anchor_price := some 2010
    buy_sequence_index := 3
    sell_sequence_index := 2
    prev_buy_count := 1
    prev_sell_count := 1
    capped_buy := false
    capped_sell := false }

/-- One non-hedge BUY position of basket 12345. -/
def oneBuyPos : Position :=
  { ticket := 1
    magic := 12345
    side := Side.buy
    volume := 0.01
    price_open := 2000
    tp := 0
    sl := 0
    comment := "GridA_initialhedgebuy"
    time := 10
    time_msc := 0 }

/-- One non-hedge SELL position of basket 12345. -/
def oneSellPos : Position :=
  { ticket := 2
    magic := 12345
    side := Side.sell
    volume := 0.01
    price_open := 2001
    tp := 0
    sl := 0
    comment := "GridA_initialhedgesell"
    time := 11
    time_msc := 0 }

/-- Globals holding exactly basket 12345. -/
def trigGlobals : Globals :=
  { initial_equity := 0
    registry := [(12345, preResetGS)]
    next_magic_number := 12346 }

/-- A trigger snapshot where the BUY side has tripped and the hedge order
fails. -/
def failedHedgeEnv : TrigEnv :=
  { positions := [oneBuyPos]
    hedgeOk := false
    serverTime := none
    spawnBuyFill := none
    spawnSellFill := none }

/-- Witness for C7: with the trigger tripped on BUY and a failed hedge, the
trigger pass changes nothing and emits nothing. -/
theorem hedge_failure_leaves_basket_untouched_witness :
    trigger_and_cap_basket trigTestConfig trigGlobals 12345 preResetGS failedHedgeEnv =
      (trigGlobals, []) :=
  (hedge_failure_leaves_basket_untouched trigTestConfig trigGlobals 12345 preResetGS
    failedHedgeEnv).1 (by decide) (by decide) (by decide) rfl

/-- A trigger snapshot where the BUY side has tripped and the hedge order
succeeds (no new grid spawns: both spawn orders fail). -/
def buyTrigEnv : TrigEnv :=
  { positions := [oneBuyPos]
    hedgeOk := true
    serverTime := none
    spawnBuyFill := none
    spawnSellFill := none }

/-- Witness for C3 at concrete inputs: the BUY-side cap places the SELL hedge
first, flips both flags, and cancels both sides. -/
theorem trigger_cap_hedge_witness :
    ((trigger_and_cap_basket trigTestConfig trigGlobals 12345 preResetGS buyTrigEnv).2.head? =
      some (.placeMarket 12345 Side.sell
        (adjust_lot trigTestConfig
          (((cap_candidates buyTrigEnv 12345 Side.buy).map (fun p => p.volume)).sum / 2))
        (hedge_sl (cap_candidates buyTrigEnv 12345 Side.buy)) (some 0)
        (format_mt5_comment preResetGS.name "DynamicHedgeSell"))) ∧
    lookupReg (trigger_and_cap_basket trigTestConfig trigGlobals 12345 preResetGS
        buyTrigEnv).1.registry 12345 =
      some { preResetGS with capped_buy := true, capped_sell := true } :=
  ⟨((trigger_cap_hedge trigTestConfig trigGlobals 12345 preResetGS buyTrigEnv
      (by decide)).1 (by decide) (by decide) (by decide) rfl).1,
   ((trigger_cap_hedge trigTestConfig trigGlobals 12345 preResetGS buyTrigEnv
      (by decide)).1 (by decide) (by decide) (by decide) rfl).2.1⟩

/-- A snapshot in which BOTH sides have reached the trigger threshold. -/
def bothSidesTrigEnv : TrigEnv :=
  { positions := [oneBuyPos, oneSellPos]
    hedgeOk := true
    serverTime := none
    spawnBuyFill := none
    spawnSellFill := none }

/-- Counterexample for C3 as stated: with both sides at the trigger, the
un-capped SELL side receives *no* BUY-direction counter-hedge — the source's
`elif` lets only the BUY branch fire in this tick, unlike the claimed
side-symmetry. -/
theorem trigger_cap_hedge_counterexample :
    trigTestConfig.dynamicPositionsTrigger ≤
      (grid_side_positions bothSidesTrigEnv 12345 Side.sell).length ∧
    preResetGS.capped_sell = false ∧
    ((trigger_and_cap_basket trigTestConfig trigGlobals 12345 preResetGS
        bothSidesTrigEnv).2.all
      (fun a => !isMarketOrderFor 12345 Side.buy a)) = true := by
  refine ⟨by decide, rfl, ?_⟩
  decide

/-- A reconcile snapshot where the BUY side has fully closed (only one SELL
position remains) and the BUY re-hedge fills at 1980. -/
def sideEmptyEnv : ReconEnv :=
  { positions := [oneSellPos]
    serverTime := none
    rehedgeBuyFill := some 1980
    rehedgeSellFill := none }

/-- Witness for C5 at concrete inputs: the emptied BUY side is cancelled and
re-anchored at the re-hedge fill 1980 with index 0, the SELL side untouched. -/
theorem side_empty_reset_witness :
    handle_closed_hedge defaultConfig 12345 preResetGS sideEmptyEnv =
      (some { preResetGS with
          buy_anchor_price := some 1980
          buy_sequence_index := 0
          prev_buy_count := 0
          prev_sell_count := current_count sideEmptyEnv 12345 Side.sell },
       [.cancelSide (some 12345) Side.buy,
        .placeMarket 12345 Side.buy defaultConfig.lotSmall 0 none
          (format_mt5_comment preResetGS.name "re_hedge_buy")]) :=
  (side_empty_reset defaultConfig 12345 preResetGS sideEmptyEnv).1 1980 rfl
    (by decide) (by decide) (by decide) (by decide) rfl

/-! ### Claim C9: startup reconstruction is idempotent -/

/-- The last binding for a key in a write list (later writes win). -/
def assocLast : List (ℕ × GridState) → ℕ → Option GridState
  | [], _ => none
  | kv :: rest, m =>
    match assocLast rest m with
    | some v => some v
    | none => if kv.1 == m then some kv.2 else none

/-- Lookup after a batch of dictionary writes: the last write to the key wins,
otherwise the original registry answers. -/
theorem lookup_applyUpserts :
    ∀ (kvs : List (ℕ × GridState)) (reg : Registry) (m : ℕ),
      lookupReg (applyUpserts reg kvs) m =
        match assocLast kvs m with
        | some v => some v
        | none => lookupReg reg m := by
  intro kvs
  induction kvs with
  | nil => intro reg m; rfl
  | cons kv rest ih =>
    intro reg m
    rw [applyUpserts, ih]
    cases hl : assocLast rest m with
    | some v => simp only [assocLast, hl]
    | none =>
      simp only [assocLast, hl]
      rw [lookupReg_upsert]
      by_cases hm : m = kv.1
      · subst hm
        rw [if_pos rfl, beq_self_eq_true kv.1]
        rfl
      · rw [if_neg hm]
        rw [show (kv.1 == m) = false from beq_eq_false_iff_ne.mpr (fun h => hm h.symm)]
        rfl

/-- Re-applying the same batch of writes changes no lookup. -/
theorem lookup_applyUpserts_idem (kvs : List (ℕ × GridState)) (reg : Registry) (m : ℕ) :
    lookupReg (applyUpserts (applyUpserts reg kvs) kvs) m =
      lookupReg (applyUpserts reg kvs) m := by
  rw [lookup_applyUpserts, lookup_applyUpserts]
  cases hl : assocLast kvs m with
  | some v => rfl
  | none => rfl

/-- A fixed point of `hedge_if_empty`'s state component stays fixed. -/
theorem hedge_if_empty_fix (cfg : Config) (env : BootEnv) (g : Globals)
    (h : (hedge_if_empty cfg g env).1 = g) :
    (hedge_if_empty cfg (hedge_if_empty cfg g env).1 env).1 = (hedge_if_empty cfg g env).1 := by
  conv_lhs => rw [h]

/-- Running `hedge_if_empty` on its own output with the same venue
observations leaves the state unchanged. -/
theorem hedge_if_empty_idem (cfg : Config) (g : Globals) (env : BootEnv) :
    (hedge_if_empty cfg (hedge_if_empty cfg g env).1 env).1 = (hedge_if_empty cfg g env).1 := by
  by_cases h1 : g.registry ≠ [] ∨ env.positions ≠ []
  · exact hedge_if_empty_fix cfg env g (by rw [hedge_if_empty, if_pos h1])
  · push_neg at h1
    obtain ⟨hreg, hposn⟩ := h1
    by_cases h2 : sessionBlocks cfg env.serverTime = true
    · exact hedge_if_empty_fix cfg env g
        (by rw [hedge_if_empty, if_neg (by simp [hreg, hposn]), if_pos h2])
    · cases hb : env.buyFill with
      | none =>
        refine hedge_if_empty_fix cfg env g ?_
        rw [hedge_if_empty, if_neg (by simp [hreg, hposn]), if_neg h2, hb]
      | some pb =>
        cases hs : env.sellFill with
        | none =>
          exact hedge_if_empty_fix cfg env g
            (by rw [hedge_if_empty, if_neg (by simp [hreg, hposn]), if_neg h2, hb, hs])
        | some ps =>
          have heq : (hedge_if_empty cfg g env).1 = { g with registry := upsertReg g.registry base_magic_number (freshGridState 'A' pb ps) } := by
            rw [hedge_if_empty, if_neg (by simp [hreg, hposn]), if_neg h2, hb, hs]
          rw [heq]
          rw [hedge_if_empty, if_pos (Or.inl (by rw [hreg]; simp [upsertReg]))]

/-- C9.  Startup reconstruction is idempotent: with the venue's open positions
and pending orders (and all venue responses) fixed, running
`reconstruct_state_on_restart` a second time yields a registry whose
`GridState` under every basket id is identical to the first run's, and the
same magic counter. -/
theorem reconstruct_startup_idempotent (cfg : Config) (g : Globals)
    (positions : List Position) (orders : List PendingOrder) (boot : BootEnv) :
    (∀ m : ℕ,
      lookupReg ((reconstruct_state_on_restart cfg
          (reconstruct_state_on_restart cfg g positions orders boot).1
          positions orders boot).1).registry m =
        lookupReg ((reconstruct_state_on_restart cfg g positions orders boot).1).registry m) ∧
    ((reconstruct_state_on_restart cfg
        (reconstruct_state_on_restart cfg g positions orders boot).1
        positions orders boot).1).next_magic_number =
      ((reconstruct_state_on_restart cfg g positions orders boot).1).next_magic_number := by
  by_cases hpos : positions ≠ []
  · have hfirst : reconstruct_state_on_restart cfg g positions orders boot =
        (reconstruct_core g positions orders, []) := by
      rw [reconstruct_state_on_restart, if_pos hpos]
    rw [hfirst]
    rw [show reconstruct_state_on_restart cfg (reconstruct_core g positions orders, ([] : List Action)).1 positions orders boot = (reconstruct_core (reconstruct_core g positions orders) positions orders, []) from by rw [reconstruct_state_on_restart, if_pos hpos]]
    unfold reconstruct_core
    constructor
    · intro m
      exact lookup_applyUpserts_idem _ _ m
    · by_cases hcond : sortedUniqueMagics positions ≠ [] ∧
          base_magic_number ≤ (sortedUniqueMagics positions).foldl max 0
      · simp only [if_pos hcond]
      · simp only [if_neg hcond]
  · have hfirst : reconstruct_state_on_restart cfg g positions orders boot =
        hedge_if_empty cfg g boot := by
      rw [reconstruct_state_on_restart, if_neg hpos]
    have hsecond : reconstruct_state_on_restart cfg
        (reconstruct_state_on_restart cfg g positions orders boot).1 positions orders boot =
        hedge_if_empty cfg (hedge_if_empty cfg g boot).1 boot := by
      rw [hfirst, reconstruct_state_on_restart, if_neg hpos]
    rw [hsecond, hfirst, hedge_if_empty_idem]
    exact ⟨fun _ => rfl, rfl⟩

/-! ### Claim C6: the profit-target circuit breaker -/

/-- C6.  When a profit target is configured and equity minus baseline reaches
it, the tick cancels all pending orders, closes all positions, clears the
whole registry, resets the baseline to the post-close equity, re-bootstraps
with a fresh paired hedge (grid "A" under the base magic), and keeps looping
(final component `true`). -/
theorem profit_target_reset (cfg : Config) (g : Globals) (env : TickEnv)
    (equity pe pb ps : ℚ)
    (h1 : 0 < cfg.profitTargetAmt)
    (h2 : env.equity = some equity)
    (h3 : cfg.profitTargetAmt ≤ equity - g.initial_equity)
    (h4 : env.postCloseEquity = some pe)
    (h5 : env.bootEnv.positions = [])
    (h6 : sessionBlocks cfg env.bootEnv.serverTime = false)
    (h7 : env.bootEnv.buyFill = some pb)
    (h8 : env.bootEnv.sellFill = some ps) :
    runTick cfg g env =
      ({ initial_equity := pe
         registry := [(base_magic_number, freshGridState 'A' pb ps)]
         next_magic_number := g.next_magic_number },
       [.cancelSide none Side.buy, .cancelSide none Side.sell,
        .closeAllPositions "profit_target_close", .clearRegistry,
        .placeMarket base_magic_number Side.buy cfg.lotSmall 0 none
          (format_mt5_comment 'A' "initial_hedge_buy"),
        .placeMarket base_magic_number Side.sell cfg.lotSmall 0 none
          (format_mt5_comment 'A' "initial_hedge_sell")],
       true) := by
  simp [runTick, hedge_if_empty, upsertReg, h1, h2, h3, h4, h5, h6, h7, h8]

/-- A tick environment in which the profit target (1000) has been reached:
equity 11000 against baseline 10000, with an empty venue after the close and
a successful re-bootstrap filling at 2000/2000. -/
def profitTickEnv : TickEnv :=
  { equity := some 11000
    postCloseEquity := some 11050
    trigEnv := fun _ => failedHedgeEnv
    reconEnv := fun _ => sideEmptyEnv
    stepEnv := fun _ => oneBuyDoneEnv
    bootEnv := { positions := [], serverTime := none, buyFill := some 2000, sellFill := some 2000 } }

/-- Globals with baseline equity 10000 and one registered basket. -/
def profitGlobals : Globals :=
  { initial_equity := 10000
    registry := [(12345, preResetGS)]
    next_magic_number := 12346 }

/-- Witness for C6 at concrete inputs. -/
theorem profit_target_reset_witness :
    runTick defaultConfig profitGlobals profitTickEnv =
      ({ initial_equity := 11050
         registry := [(base_magic_number, freshGridState 'A' 2000 2000)]
         next_magic_number := profitGlobals.next_magic_number },
       [.cancelSide none Side.buy, .cancelSide none Side.sell,
        .closeAllPositions "profit_target_close", .clearRegistry,
        .placeMarket base_magic_number Side.buy defaultConfig.lotSmall 0 none
          (format_mt5_comment 'A' "initial_hedge_buy"),
        .placeMarket base_magic_number Side.sell defaultConfig.lotSmall 0 none
          (format_mt5_comment 'A' "initial_hedge_sell")],
       true) :=
  profit_target_reset defaultConfig profitGlobals profitTickEnv 11000 11050 2000 2000
    (by norm_num [defaultConfig]) rfl (by norm_num [defaultConfig, profitGlobals]) rfl rfl
    (by decide) rfl rfl

/-! ### Claim C2: a capped basket is permanently frozen -/

/-- A both-sides-capped basket is skipped entirely by the trigger pass. -/
theorem trigger_capped (cfg : Config) (g : Globals) (magic : ℕ) (gs : GridState)
    (env : TrigEnv) (hb : gs.capped_buy = true) (hs : gs.capped_sell = true) :
    trigger_and_cap_basket cfg g magic gs env = (g, []) := by
  simp [trigger_and_cap_basket, hb, hs]

/-- A capped side is skipped by the per-side populator guard. -/
theorem populate_side_capped (cfg : Config) (magic : ℕ) (s : Side) (anchor : Option ℚ)
    (idx pending : ℕ) (evs : List PopEvent) :
    populate_side cfg magic s true anchor idx pending evs = (idx, []) := by
  simp [populate_side]

/-- `step_grid` never changes the capped flags. -/
theorem step_grid_preserves_flags (cfg : Config) (magic : ℕ) (gs : GridState)
    (env : StepEnv) :
    (step_grid cfg magic gs env).1.capped_buy = gs.capped_buy ∧
    (step_grid cfg magic gs env).1.capped_sell = gs.capped_sell := by
  by_cases h1 : cfg.maxPositions ≤ env.allPositions.length
  · rw [step_grid_skip cfg magic gs env (Or.inl h1)]
    exact ⟨rfl, rfl⟩
  by_cases h2 : sessionBlocks cfg env.serverTime = true
  · rw [step_grid_skip cfg magic gs env (Or.inr h2)]
    exact ⟨rfl, rfl⟩
  rw [step_grid_run cfg magic gs env h1 (by simpa using h2)]
  exact ⟨rfl, rfl⟩

/-- `step_grid` places and attempts nothing for a both-sides-capped basket. -/
theorem step_grid_capped_no_actions (cfg : Config) (magic : ℕ) (gs : GridState)
    (env : StepEnv) (hb : gs.capped_buy = true) (hs : gs.capped_sell = true) :
    (step_grid cfg magic gs env).2 = [] := by
  by_cases h1 : cfg.maxPositions ≤ env.allPositions.length
  · rw [step_grid_skip cfg magic gs env (Or.inl h1)]
  by_cases h2 : sessionBlocks cfg env.serverTime = true
  · rw [step_grid_skip cfg magic gs env (Or.inr h2)]
  rw [step_grid_run cfg magic gs env h1 (by simpa using h2)]
  rw [hb, hs, populate_side_capped, populate_side_capped]
  rfl

/-- Every action of one side's population loop is a `placeLimit` or a
`limitRejected` of that basket and side. -/
theorem stepGridSide_action_shape (cfg : Config) (magic : ℕ) (s : Side) (a : ℚ) :
    ∀ (evs : List PopEvent) (idx pending : ℕ) (act : Action),
      act ∈ (stepGridSide cfg magic s a idx pending evs).2 →
      (∃ k price lot n, act = .placeLimit magic s k price lot n) ∨
      (∃ k price b, act = .limitRejected magic s k price b) := by
  intro evs
  induction evs with
  | nil => intro idx pending act h; simp [stepGridSide] at h
  | cons e rest ih =>
    intro idx pending act h
    rw [stepGridSide] at h
    by_cases hp : pending < cfg.maxPendingGridOrdersPerSide
    · rw [if_pos hp] at h
      by_cases hi : idx < cfg.gridLotSequence.length
      · rw [if_pos hi] at h
        cases hr : e.result with
        | done =>
          rw [hr] at h
          rcases List.mem_cons.mp h with h | h
          · exact Or.inl ⟨_, _, _, _, h⟩
          · exact ih _ _ act h
        | invalidPrice =>
          rw [hr] at h
          exact Or.inr ⟨_, _, _, List.mem_singleton.mp h⟩
        | fail =>
          rw [hr] at h
          exact Or.inr ⟨_, _, _, List.mem_singleton.mp h⟩
      · rw [if_neg hi] at h; simp at h
    · rw [if_neg hp] at h; simp at h

/-- Every `step_grid` action carries this basket's magic and is never an order
for — nor destructive of — any other basket. -/
theorem step_grid_actions_other (cfg : Config) (k : ℕ) (gs : GridState) (env : StepEnv)
    (m : ℕ) (hk : k ≠ m) :
    ∀ a ∈ (step_grid cfg k gs env).2, a.isOrderFor m = false ∧ a.destroysBasket m = false := by
  intro a ha
  by_cases h1 : cfg.maxPositions ≤ env.allPositions.length
  · rw [step_grid_skip cfg k gs env (Or.inl h1)] at ha; simp at ha
  by_cases h2 : sessionBlocks cfg env.serverTime = true
  · rw [step_grid_skip cfg k gs env (Or.inr h2)] at ha; simp at ha
  rw [step_grid_run cfg k gs env h1 (by simpa using h2)] at ha
  have hshape : (∃ s kk price lot n, a = Action.placeLimit k s kk price lot n) ∨
      (∃ s kk price b, a = Action.limitRejected k s kk price b) := by
    rcases List.mem_append.mp ha with ha | ha
    · unfold populate_side at ha
      by_cases hc : gs.capped_buy = false
      · rw [if_pos hc] at ha
        cases haa : gs.buy_anchor_price with
        | none => rw [haa] at ha; simp at ha
        | some anch =>
          rw [haa] at ha
          rcases stepGridSide_action_shape cfg k Side.buy anch env.buyEvents _ _ a ha with
            ⟨kk, p, l, n, h⟩ | ⟨kk, p, b, h⟩
          · exact Or.inl ⟨_, _, _, _, _, h⟩
          · exact Or.inr ⟨_, _, _, _, h⟩
      · rw [if_neg hc] at ha; simp at ha
    · unfold populate_side at ha
      by_cases hc : gs.capped_sell = false
      · rw [if_pos hc] at ha
        cases haa : gs.sell_anchor_price with
        | none => rw [haa] at ha; simp at ha
        | some anch =>
          rw [haa] at ha
          rcases stepGridSide_action_shape cfg k Side.sell anch env.sellEvents _ _ a ha with
            ⟨kk, p, l, n, h⟩ | ⟨kk, p, b, h⟩
          · exact Or.inl ⟨_, _, _, _, _, h⟩
          · exact Or.inr ⟨_, _, _, _, h⟩
      · rw [if_neg hc] at ha; simp at ha
  rcases hshape with ⟨s, kk, p, l, n, rfl⟩ | ⟨s, kk, p, b, rfl⟩
  · exact ⟨by simp [Action.isOrderFor, hk], rfl⟩
  · exact ⟨rfl, rfl⟩

/-- A capped BUY side is left alone by the BUY-closure block. -/
theorem reset_buy_side_capped (cfg : Config) (magic : ℕ) (gs : GridState) (env : ReconEnv)
    (hb : gs.capped_buy = true) :
    reset_buy_side cfg magic gs env = (gs, []) := by
  simp [reset_buy_side, hb]

/-- A capped SELL side is left alone by the SELL-closure block. -/
theorem reset_sell_side_capped (cfg : Config) (magic : ℕ) (gs : GridState) (env : ReconEnv)
    (hs : gs.capped_sell = true) :
    reset_sell_side cfg magic gs env = (gs, []) := by
  simp [reset_sell_side, hs]

/-- Every action of the BUY-closure block is that basket's cancel or solo BUY
market order. -/
theorem reset_buy_side_shape (cfg : Config) (magic : ℕ) (gs : GridState) (env : ReconEnv) :
    ∀ a ∈ (reset_buy_side cfg magic gs env).2,
      a = .cancelSide (some magic) Side.buy ∨
      a = .placeMarket magic Side.buy cfg.lotSmall 0 none
        (format_mt5_comment gs.name "re_hedge_buy") := by
  intro a ha
  unfold reset_buy_side at ha
  split at ha
  · split at ha
    · split at ha <;> simp_all
    · simp_all
  · simp at ha

/-- Every action of the SELL-closure block is that basket's cancel or solo
SELL market order. -/
theorem reset_sell_side_shape (cfg : Config) (magic : ℕ) (gs1 : GridState) (env : ReconEnv) :
    ∀ a ∈ (reset_sell_side cfg magic gs1 env).2,
      a = .cancelSide (some magic) Side.sell ∨
      a = .placeMarket magic Side.sell cfg.lotSmall 0 none
        (format_mt5_comment gs1.name "re_hedge_sell") := by
  intro a ha
  unfold reset_sell_side at ha
  split at ha
  · split at ha
    · split at ha <;> simp_all
    · simp_all
  · simp at ha

/-- The closure blocks never touch the capped flags. -/
theorem reset_buy_side_flags (cfg : Config) (magic : ℕ) (gs : GridState) (env : ReconEnv) :
    (reset_buy_side cfg magic gs env).1.capped_buy = gs.capped_buy ∧
    (reset_buy_side cfg magic gs env).1.capped_sell = gs.capped_sell := by
  unfold reset_buy_side
  split
  · split
    · split <;> exact ⟨rfl, rfl⟩
    · exact ⟨rfl, rfl⟩
  · exact ⟨rfl, rfl⟩

/-- The closure blocks never touch the capped flags (SELL version). -/
theorem reset_sell_side_flags (cfg : Config) (magic : ℕ) (gs1 : GridState) (env : ReconEnv) :
    (reset_sell_side cfg magic gs1 env).1.capped_buy = gs1.capped_buy ∧
    (reset_sell_side cfg magic gs1 env).1.capped_sell = gs1.capped_sell := by
  unfold reset_sell_side
  split
  · split
    · split <;> exact ⟨rfl, rfl⟩
    · exact ⟨rfl, rfl⟩
  · exact ⟨rfl, rfl⟩

/-- Every action of `handle_closed_hedge` is a cancel, the basket's removal
marker, or one of the two solo re-hedge market orders of this basket. -/
theorem handle_closed_hedge_action_shape (cfg : Config) (k : ℕ) (gs : GridState)
    (env : ReconEnv) :
    ∀ a ∈ (handle_closed_hedge cfg k gs env).2,
      a = .cancelSide (some k) Side.buy ∨ a = .cancelSide (some k) Side.sell ∨
      a = .removeGrid k ∨
      (∃ c, a = .placeMarket k Side.buy cfg.lotSmall 0 none c) ∨
      (∃ c, a = .placeMarket k Side.sell cfg.lotSmall 0 none c) := by
  intro a ha
  have hbuy := reset_buy_side_shape cfg k gs env
  have hsell := reset_sell_side_shape cfg k (reset_buy_side cfg k gs env).1 env
  simp only [handle_closed_hedge] at ha
  split at ha
  · simp only [List.mem_append, List.mem_cons, List.mem_singleton,
      List.not_mem_nil, or_false] at ha
    rcases ha with ((ha | ha) | (ha | ha | ha))
    · rcases hbuy a ha with h | h
      · exact Or.inl h
      · exact Or.inr (Or.inr (Or.inr (Or.inl ⟨_, h⟩)))
    · rcases hsell a ha with h | h
      · exact Or.inr (Or.inl h)
      · exact Or.inr (Or.inr (Or.inr (Or.inr ⟨_, h⟩)))
    · exact Or.inl ha
    · exact Or.inr (Or.inl ha)
    · exact Or.inr (Or.inr (Or.inl ha))
  · rcases List.mem_append.mp ha with ha | ha
    · rcases hbuy a ha with h | h
      · exact Or.inl h
      · exact Or.inr (Or.inr (Or.inr (Or.inl ⟨_, h⟩)))
    · rcases hsell a ha with h | h
      · exact Or.inr (Or.inl h)
      · exact Or.inr (Or.inr (Or.inr (Or.inr ⟨_, h⟩)))

/-- `handle_closed_hedge` preserves the capped flags of a surviving basket. -/
theorem handle_closed_hedge_flags (cfg : Config) (k : ℕ) (gs : GridState) (env : ReconEnv) :
    ∀ gs', (handle_closed_hedge cfg k gs env).1 = some gs' →
      gs'.capped_buy = gs.capped_buy ∧ gs'.capped_sell = gs.capped_sell := by
  intro gs' h
  obtain ⟨hb1, hs1⟩ := reset_buy_side_flags cfg k gs env
  obtain ⟨hb2, hs2⟩ := reset_sell_side_flags cfg k (reset_buy_side cfg k gs env).1 env
  simp only [handle_closed_hedge] at h
  split at h
  · cases h
  · cases h
    exact ⟨hb2.trans hb1, hs2.trans hs1⟩

/-- A deactivated basket is marked with its `removeGrid` action. -/
theorem handle_closed_hedge_none_remove (cfg : Config) (k : ℕ) (gs : GridState)
    (env : ReconEnv) (h : (handle_closed_hedge cfg k gs env).1 = none) :
    Action.removeGrid k ∈ (handle_closed_hedge cfg k gs env).2 := by
  by_cases hemp : env.positions.filter (fun p => p.magic == k) = []
  · rw [handle_closed_hedge, if_pos hemp]
    simp
  · exfalso
    rw [handle_closed_hedge, if_neg hemp] at h
    simp at h

/-- For a both-sides-capped basket, `handle_closed_hedge` places no order at
all (for any basket). -/
theorem handle_closed_hedge_capped_no_orders (cfg : Config) (k : ℕ) (gs : GridState)
    (env : ReconEnv) (hb : gs.capped_buy = true) (hs : gs.capped_sell = true) :
    ∀ a ∈ (handle_closed_hedge cfg k gs env).2, ∀ m, a.isOrderFor m = false := by
  intro a ha m
  have h1 : reset_buy_side cfg k gs env = (gs, []) := reset_buy_side_capped cfg k gs env hb
  have h2 : reset_sell_side cfg k gs env = (gs, []) := reset_sell_side_capped cfg k gs env hs
  simp only [handle_closed_hedge, h1] at ha
  rw [h2] at ha
  split at ha
  · simp only [List.nil_append, List.mem_cons, List.mem_singleton,
      List.not_mem_nil, or_false] at ha
    rcases ha with rfl | rfl | rfl <;> rfl
  · simp at ha

/-- The registry entry of a different basket survives
`freeze_grid_and_start_new`, the magic counter stays above `m`, and no
spawned or hedging action is an order for `m`. -/
theorem freeze_preserves_other (cfg : Config) (g : Globals) (k : ℕ) (gs : GridState)
    (toCap : List Position) (tag : String) (env : TrigEnv) (m : ℕ) (hk : k ≠ m)
    (hfresh : m < g.next_magic_number) :
    lookupReg (freeze_grid_and_start_new cfg g k gs toCap tag env).1.registry m =
      lookupReg g.registry m ∧
    m < (freeze_grid_and_start_new cfg g k gs toCap tag env).1.next_magic_number ∧
    ∀ a ∈ (freeze_grid_and_start_new cfg g k gs toCap tag env).2,
      a.isOrderFor m = false ∧ a.destroysBasket m = false := by
  have hbase : ∀ (c : String),
      (Action.retag 0 c).isOrderFor m = false := fun _ => rfl
  unfold freeze_grid_and_start_new
  by_cases hlen : (upsertReg g.registry k { gs with capped_buy := true, capped_sell := true }).length < cfg.maxActiveGrids
  · rw [if_pos hlen]
    by_cases hsess : sessionBlocks cfg env.serverTime = true
    · rw [if_pos hsess]
      refine ⟨by rw [lookupReg_upsert, if_neg (fun h => hk h.symm)], hfresh, ?_⟩
      intro a ha
      rcases List.mem_append.mp ha with ha | ha
      · obtain ⟨p, -, rfl⟩ := List.mem_map.mp ha
        exact ⟨rfl, rfl⟩
      · rcases List.mem_cons.mp ha with rfl | ha
        · exact ⟨rfl, rfl⟩
        · rw [List.mem_singleton.mp ha]
          exact ⟨rfl, rfl⟩
    · rw [if_neg hsess]
      have horder : ∀ a ∈ ((toCap.map (fun p => Action.retag p.ticket
          (format_mt5_comment gs.name tag)) ++
          [Action.cancelSide (some k) Side.buy, Action.cancelSide (some k) Side.sell]) ++
          (match env.spawnBuyFill with
           | some _ => [Action.placeMarket g.next_magic_number Side.buy cfg.lotSmall 0 none
               (format_mt5_comment (Char.ofNat (gs.name.toNat + 1)) "initial_hedge_buy")]
           | none => []) ++
          (match env.spawnSellFill with
           | some _ => [Action.placeMarket g.next_magic_number Side.sell cfg.lotSmall 0 none
               (format_mt5_comment (Char.ofNat (gs.name.toNat + 1)) "initial_hedge_sell")]
           | none => [])),
          a.isOrderFor m = false ∧ a.destroysBasket m = false := by
        intro a ha
        rcases List.mem_append.mp ha with ha | ha
        · rcases List.mem_append.mp ha with ha | ha
          · rcases List.mem_append.mp ha with ha | ha
            · obtain ⟨p, -, rfl⟩ := List.mem_map.mp ha
              exact ⟨rfl, rfl⟩
            · rcases List.mem_cons.mp ha with rfl | ha
              · exact ⟨rfl, rfl⟩
              · rw [List.mem_singleton.mp ha]
                exact ⟨rfl, rfl⟩
          · cases hsb : env.spawnBuyFill with
            | none => rw [hsb] at ha; simp at ha
            | some pb =>
              rw [hsb] at ha
              rw [List.mem_singleton.mp ha]
              exact ⟨by simp [Action.isOrderFor]; omega, rfl⟩
        · cases hss : env.spawnSellFill with
          | none => rw [hss] at ha; simp at ha
          | some ps =>
            rw [hss] at ha
            rw [List.mem_singleton.mp ha]
            exact ⟨by simp [Action.isOrderFor]; omega, rfl⟩
      cases hsb : env.spawnBuyFill with
      | none =>
        cases hss : env.spawnSellFill with
        | none =>
          refine ⟨by rw [lookupReg_upsert, if_neg (fun h => hk h.symm)], hfresh, ?_⟩
          intro a ha
          apply horder
          rw [hsb, hss]
          simpa using ha
        | some ps =>
          refine ⟨by rw [lookupReg_upsert, if_neg (fun h => hk h.symm)], hfresh, ?_⟩
          intro a ha
          apply horder
          rw [hsb, hss]
          simpa using ha
      | some pb =>
        cases hss : env.spawnSellFill with
        | none =>
          refine ⟨by rw [lookupReg_upsert, if_neg (fun h => hk h.symm)], hfresh, ?_⟩
          intro a ha
          apply horder
          rw [hsb, hss]
          simpa using ha
        | some ps =>
          refine ⟨?_, by simp; omega, ?_⟩
          · rw [lookupReg_upsert, if_neg (by omega : ¬ m = g.next_magic_number),
              lookupReg_upsert, if_neg (fun h => hk h.symm)]
          · intro a ha
            apply horder
            rw [hsb, hss]
            simpa using ha
  · rw [if_neg hlen]
    refine ⟨by rw [lookupReg_upsert, if_neg (fun h => hk h.symm)], hfresh, ?_⟩
    intro a ha
    rcases List.mem_append.mp ha with ha | ha
    · obtain ⟨p, -, rfl⟩ := List.mem_map.mp ha
      exact ⟨rfl, rfl⟩
    · rcases List.mem_cons.mp ha with rfl | ha
      · exact ⟨rfl, rfl⟩
      · rw [List.mem_singleton.mp ha]
        exact ⟨rfl, rfl⟩

/-- One basket's trigger/cap check never harms another, already-capped basket
`m`: its registry entry, the freshness of `m`, and the absence of orders or
destruction for `m` are all preserved (and the check is a no-op on `m`
itself). -/
theorem trigger_basket_preserves (cfg : Config) (g : Globals) (k : ℕ) (gsk : GridState)
    (env : TrigEnv) (m : ℕ) (gsm : GridState)
    (hm : lookupReg g.registry m = some gsm)
    (hcb : gsm.capped_buy = true) (hcs : gsm.capped_sell = true)
    (hfresh : m < g.next_magic_number)
    (hk : lookupReg g.registry k = some gsk) :
    lookupReg (trigger_and_cap_basket cfg g k gsk env).1.registry m = some gsm ∧
    m < (trigger_and_cap_basket cfg g k gsk env).1.next_magic_number ∧
    ∀ a ∈ (trigger_and_cap_basket cfg g k gsk env).2,
      a.isOrderFor m = false ∧ a.destroysBasket m = false := by
  by_cases hkm : k = m
  · subst hkm
    rw [hk] at hm
    have hgg : gsk = gsm := Option.some.inj hm
    rw [trigger_capped cfg g k gsk env (by rw [hgg]; exact hcb) (by rw [hgg]; exact hcs)]
    exact ⟨by rw [hk, hgg], hfresh, by simp⟩
  · by_cases c1 : gsk.capped_buy = false ∧
        cfg.dynamicPositionsTrigger ≤ (grid_side_positions env k Side.buy).length
    · by_cases c2 : cap_candidates env k Side.buy = []
      · have heq : trigger_and_cap_basket cfg g k gsk env = (g, []) := by
          simp [trigger_and_cap_basket, c1.1, c1.2, c2]
        rw [heq]
        exact ⟨hm, hfresh, by simp⟩
      · cases hok : env.hedgeOk
        · have heq : trigger_and_cap_basket cfg g k gsk env = (g, []) := by
            simp [trigger_and_cap_basket, c1.1, c1.2, c2, hok]
          rw [heq]
          exact ⟨hm, hfresh, by simp⟩
        · have heq : trigger_and_cap_basket cfg g k gsk env =
              ((freeze_grid_and_start_new cfg g k gsk (cap_candidates env k Side.buy)
                  "CappedBuy" env).1,
                Action.placeMarket k Side.sell
                  (adjust_lot cfg
                    (((cap_candidates env k Side.buy).map (fun p => p.volume)).sum / 2))
                  (hedge_sl (cap_candidates env k Side.buy)) (some 0)
                  (format_mt5_comment gsk.name "DynamicHedgeSell") ::
                (freeze_grid_and_start_new cfg g k gsk (cap_candidates env k Side.buy)
                  "CappedBuy" env).2) := by
            simp [trigger_and_cap_basket, c1.1, c1.2, c2, hok]
          obtain ⟨hl, hn, hacts⟩ := freeze_preserves_other cfg g k gsk
            (cap_candidates env k Side.buy) "CappedBuy" env m hkm hfresh
          rw [heq]
          refine ⟨hl.trans hm, hn, ?_⟩
          intro a ha
          rcases List.mem_cons.mp ha with rfl | ha
          · exact ⟨by simp [Action.isOrderFor, hkm], rfl⟩
          · exact hacts a ha
    · by_cases c3 : gsk.capped_sell = false ∧
          cfg.dynamicPositionsTrigger ≤ (grid_side_positions env k Side.sell).length
      · by_cases c4 : cap_candidates env k Side.sell = []
        · have heq : trigger_and_cap_basket cfg g k gsk env = (g, []) := by
            simp [trigger_and_cap_basket, c1, c3.1, c3.2, c4]
          rw [heq]
          exact ⟨hm, hfresh, by simp⟩
        · cases hok : env.hedgeOk
          · have heq : trigger_and_cap_basket cfg g k gsk env = (g, []) := by
              simp [trigger_and_cap_basket, c1, c3.1, c3.2, c4, hok]
            rw [heq]
            exact ⟨hm, hfresh, by simp⟩
          · have heq : trigger_and_cap_basket cfg g k gsk env =
                ((freeze_grid_and_start_new cfg g k gsk (cap_candidates env k Side.sell)
                    "CappedSell" env).1,
                  Action.placeMarket k Side.buy
                    (adjust_lot cfg
                      (((cap_candidates env k Side.sell).map (fun p => p.volume)).sum / 2))
                    (hedge_sl (cap_candidates env k Side.sell)) (some 0)
                    (format_mt5_comment gsk.name "DynamicHedgeBuy") ::
                  (freeze_grid_and_start_new cfg g k gsk (cap_candidates env k Side.sell)
                    "CappedSell" env).2) := by
              simp [trigger_and_cap_basket, c1, c3.1, c3.2, c4, hok]
            obtain ⟨hl, hn, hacts⟩ := freeze_preserves_other cfg g k gsk
              (cap_candidates env k Side.sell) "CappedSell" env m hkm hfresh
            rw [heq]
            refine ⟨hl.trans hm, hn, ?_⟩
            intro a ha
            rcases List.mem_cons.mp ha with rfl | ha
            · exact ⟨by simp [Action.isOrderFor, hkm], rfl⟩
            · exact hacts a ha
      · have heq : trigger_and_cap_basket cfg g k gsk env = (g, []) := by
          simp [trigger_and_cap_basket, c1, c3]
        rw [heq]
        exact ⟨hm, hfresh, by simp⟩

/-- The whole trigger pass preserves a capped basket `m` untouched: same
registry entry, `m` still fresh, and no order or destruction for `m`. -/
theorem trig_pass_go_preserves (cfg : Config) (envf : ℕ → TrigEnv) :
    ∀ (keys : List ℕ) (g : Globals) (m : ℕ) (gsm : GridState),
      lookupReg g.registry m = some gsm →
      gsm.capped_buy = true → gsm.capped_sell = true →
      m < g.next_magic_number →
      lookupReg (trig_pass_go cfg envf keys g).1.registry m = some gsm ∧
      m < (trig_pass_go cfg envf keys g).1.next_magic_number ∧
      ∀ a ∈ (trig_pass_go cfg envf keys g).2,
        a.isOrderFor m = false ∧ a.destroysBasket m = false := by
  intro keys
  induction keys with
  | nil =>
    intro g m gsm hm hcb hcs hf
    exact ⟨hm, hf, by simp [trig_pass_go]⟩
  | cons k ks ih =>
    intro g m gsm hm hcb hcs hf
    cases hlk : lookupReg g.registry k with
    | none =>
      simp only [trig_pass_go, hlk]
      obtain ⟨h1, h2, h3⟩ := ih g m gsm hm hcb hcs hf
      refine ⟨h1, h2, ?_⟩
      intro a ha
      simp only [List.nil_append] at ha
      exact h3 a ha
    | some gsk =>
      obtain ⟨p1, p2, p3⟩ := trigger_basket_preserves cfg g k gsk (envf k) m gsm
        hm hcb hcs hf hlk
      obtain ⟨q1, q2, q3⟩ := ih (trigger_and_cap_basket cfg g k gsk (envf k)).1 m gsm
        p1 hcb hcs p2
      simp only [trig_pass_go, hlk]
      refine ⟨q1, q2, ?_⟩
      intro a ha
      rcases List.mem_append.mp ha with ha | ha
      · exact p3 a ha
      · exact q3 a ha

/-- A basket that survives `handle_closed_hedge` was not marked removed. -/
theorem handle_closed_hedge_some_no_remove (cfg : Config) (k : ℕ) (gs : GridState)
    (env : ReconEnv) (gs1 : GridState)
    (h : (handle_closed_hedge cfg k gs env).1 = some gs1) :
    ∀ m, Action.removeGrid m ∉ (handle_closed_hedge cfg k gs env).2 := by
  intro m hmem
  by_cases hemp : env.positions.filter (fun p => p.magic == k) = []
  · rw [handle_closed_hedge, if_pos hemp] at h
    simp at h
  · rw [handle_closed_hedge, if_neg hemp] at hmem
    simp only [List.mem_append, List.mem_cons, List.mem_singleton] at hmem
    rcases hmem with hmem | hmem
    · rcases reset_buy_side_shape cfg k gs env _ hmem with h' | h' <;> simp at h'
    · rcases reset_sell_side_shape cfg k (reset_buy_side cfg k gs env).1 env _ hmem with
        h' | h' <;> simp at h'

/-- The per-basket pass never changes the magic counter. -/
theorem basket_pass_next (cfg : Config) (env : TickEnv) (g : Globals) (k : ℕ) :
    (basket_pass cfg env g k).1.next_magic_number = g.next_magic_number := by
  cases hlk : lookupReg g.registry k with
  | none => simp only [basket_pass, hlk]
  | some gs =>
    cases h1 : (handle_closed_hedge cfg k gs (env.reconEnv k)).1 with
    | none => simp only [basket_pass, hlk, h1]
    | some gs1 => simp only [basket_pass, hlk, h1]

/-- Deleting a key really removes it. -/
theorem lookupReg_remove_self (reg : Registry) (m : ℕ) :
    lookupReg (removeReg reg m) m = none := by
  induction reg with
  | nil => rfl
  | cons kv rest ih =>
    by_cases hk : kv.1 = m
    · simp only [removeReg, List.filter] at *
      rw [show (kv.1 != m) = false from by simp [hk]]
      exact ih
    · simp only [removeReg, List.filter] at *
      rw [show (kv.1 != m) = true from by simp [hk]]
      simp only [lookupReg, List.find?]
      rw [show (kv.1 == m) = false from by simp [hk]]
      exact ih

/-- One basket's reconcile-and-populate pass leaves every other basket's
registry entry alone and emits no order for — and nothing destructive of —
that other basket. -/
theorem basket_pass_other (cfg : Config) (env : TickEnv) (g : Globals) (k m : ℕ)
    (hkm : k ≠ m) :
    lookupReg (basket_pass cfg env g k).1.registry m = lookupReg g.registry m ∧
    ∀ a ∈ (basket_pass cfg env g k).2,
      a.isOrderFor m = false ∧ a.destroysBasket m = false := by
  cases hlk : lookupReg g.registry k with
  | none =>
    simp only [basket_pass, hlk]
    exact ⟨trivial, by simp⟩
  | some gsk =>
    have hshape : ∀ a ∈ (handle_closed_hedge cfg k gsk (env.reconEnv k)).2,
        a.isOrderFor m = false ∧ a.destroysBasket m = false := by
      intro a ha
      rcases handle_closed_hedge_action_shape cfg k gsk (env.reconEnv k) a ha with
        hc | hc | hc | ⟨c, hc⟩ | ⟨c, hc⟩ <;> subst hc <;>
        exact ⟨by simp [Action.isOrderFor, hkm], by simp [Action.destroysBasket, hkm]⟩
    cases h1 : (handle_closed_hedge cfg k gsk (env.reconEnv k)).1 with
    | none =>
      simp only [basket_pass, hlk, h1]
      exact ⟨lookupReg_remove_ne g.registry m k (fun h => hkm h.symm), hshape⟩
    | some gs1 =>
      simp only [basket_pass, hlk, h1]
      refine ⟨?_, ?_⟩
      · rw [lookupReg_upsert, if_neg (fun h => hkm h.symm)]
      · intro a ha
        rcases List.mem_append.mp ha with ha | ha
        · exact hshape a ha
        · exact step_grid_actions_other cfg k gs1 (env.stepEnv k) m hkm a ha

/-- One basket's reconcile-and-populate pass never places an order for an
(other or same) basket `m` that is capped on both sides; if it deletes `m` it
says so with a `removeGrid m` action, and otherwise `m`'s entry survives with
both capped flags still set. -/
theorem basket_pass_preserves (cfg : Config) (env : TickEnv) (g : Globals) (k m : ℕ)
    (gsm : GridState) (hm : lookupReg g.registry m = some gsm)
    (hcb : gsm.capped_buy = true) (hcs : gsm.capped_sell = true) :
    (∀ a ∈ (basket_pass cfg env g k).2, a.isOrderFor m = false) ∧
    (Action.removeGrid m ∉ (basket_pass cfg env g k).2 →
      ∃ gs', lookupReg (basket_pass cfg env g k).1.registry m = some gs' ∧
        gs'.capped_buy = true ∧ gs'.capped_sell = true) ∧
    (Action.removeGrid m ∈ (basket_pass cfg env g k).2 →
      lookupReg (basket_pass cfg env g k).1.registry m = none) := by
  by_cases hkm : k = m
  · subst hkm
    cases hlk : lookupReg g.registry k with
    | none =>
      rw [hlk] at hm
      cases hm
    | some gsk =>
      rw [hlk] at hm
      have hgg : gsk = gsm := Option.some.inj hm
      subst hgg
      have hord := handle_closed_hedge_capped_no_orders cfg k gsk (env.reconEnv k) hcb hcs
      cases h1 : (handle_closed_hedge cfg k gsk (env.reconEnv k)).1 with
      | none =>
        simp only [basket_pass, hlk, h1]
        refine ⟨fun a ha => hord a ha k, ?_, ?_⟩
        · intro hno
          exact absurd (handle_closed_hedge_none_remove cfg k gsk (env.reconEnv k) h1) hno
        · intro _
          exact lookupReg_remove_self g.registry k
      | some gs1 =>
        obtain ⟨hf1, hf2⟩ := handle_closed_hedge_flags cfg k gsk (env.reconEnv k) gs1 h1
        have hstep : (step_grid cfg k gs1 (env.stepEnv k)).2 = [] :=
          step_grid_capped_no_actions cfg k gs1 (env.stepEnv k)
            (hf1.trans hcb) (hf2.trans hcs)
        obtain ⟨hp1, hp2⟩ := step_grid_preserves_flags cfg k gs1 (env.stepEnv k)
        simp only [basket_pass, hlk, h1, hstep, List.append_nil]
        refine ⟨fun a ha => hord a ha k, ?_, ?_⟩
        · intro _
          refine ⟨(step_grid cfg k gs1 (env.stepEnv k)).1, ?_,
            hp1.trans (hf1.trans hcb), hp2.trans (hf2.trans hcs)⟩
          rw [lookupReg_upsert, if_pos rfl]
        · intro hmem
          exact absurd hmem (handle_closed_hedge_some_no_remove cfg k gsk (env.reconEnv k)
            gs1 h1 k)
  · obtain ⟨hl, hacts⟩ := basket_pass_other cfg env g k m hkm
    refine ⟨fun a ha => (hacts a ha).1, ?_, ?_⟩
    · intro _
      exact ⟨gsm, hl.trans hm, hcb, hcs⟩
    · intro hmem
      have := (hacts _ hmem).2
      simp [Action.destroysBasket] at this

/-- After basket `m` is gone from the registry, the per-basket pass keeps it
gone and never orders for it. -/
theorem basket_pass_no_m (cfg : Config) (env : TickEnv) (g : Globals) (k m : ℕ)
    (hm : lookupReg g.registry m = none) :
    lookupReg (basket_pass cfg env g k).1.registry m = none ∧
    ∀ a ∈ (basket_pass cfg env g k).2, a.isOrderFor m = false := by
  by_cases hkm : k = m
  · subst hkm
    simp only [basket_pass, hm]
    exact ⟨trivial, by simp⟩
  · obtain ⟨hl, hacts⟩ := basket_pass_other cfg env g k m hkm
    exact ⟨hl.trans hm, fun a ha => (hacts a ha).1⟩

/-- The per-basket pass loop never changes the magic counter. -/
theorem basket_pass_go_next (cfg : Config) (env : TickEnv) :
    ∀ (keys : List ℕ) (g : Globals),
      (basket_pass_go cfg env keys g).1.next_magic_number = g.next_magic_number := by
  intro keys
  induction keys with
  | nil => intro g; rfl
  | cons k ks ih =>
    intro g
    simp only [basket_pass_go]
    exact (ih _).trans (basket_pass_next cfg env g k)

/-- After basket `m` is gone, the whole per-basket loop keeps it gone and
never orders for it. -/
theorem basket_pass_go_no_m (cfg : Config) (env : TickEnv) :
    ∀ (keys : List ℕ) (g : Globals) (m : ℕ),
      lookupReg g.registry m = none →
      lookupReg (basket_pass_go cfg env keys g).1.registry m = none ∧
      ∀ a ∈ (basket_pass_go cfg env keys g).2, a.isOrderFor m = false := by
  intro keys
  induction keys with
  | nil =>
    intro g m hm
    exact ⟨hm, by simp [basket_pass_go]⟩
  | cons k ks ih =>
    intro g m hm
    obtain ⟨h1, h2⟩ := basket_pass_no_m cfg env g k m hm
    obtain ⟨h3, h4⟩ := ih (basket_pass cfg env g k).1 m h1
    simp only [basket_pass_go]
    refine ⟨h3, ?_⟩
    intro a ha
    rcases List.mem_append.mp ha with ha | ha
    · exact h2 a ha
    · exact h4 a ha

/-- The whole per-basket loop never places an order for a both-sides-capped
basket `m`, and unless it announces `removeGrid m` the basket survives with
both flags still set. -/
theorem basket_pass_go_preserves (cfg : Config) (env : TickEnv) :
    ∀ (keys : List ℕ) (g : Globals) (m : ℕ) (gsm : GridState),
      lookupReg g.registry m = some gsm →
      gsm.capped_buy = true → gsm.capped_sell = true →
      (∀ a ∈ (basket_pass_go cfg env keys g).2, a.isOrderFor m = false) ∧
      (Action.removeGrid m ∉ (basket_pass_go cfg env keys g).2 →
        ∃ gs', lookupReg (basket_pass_go cfg env keys g).1.registry m = some gs' ∧
          gs'.capped_buy = true ∧ gs'.capped_sell = true) := by
  intro keys
  induction keys with
  | nil =>
    intro g m gsm hm hcb hcs
    exact ⟨by simp [basket_pass_go], fun _ => ⟨gsm, hm, hcb, hcs⟩⟩
  | cons k ks ih =>
    intro g m gsm hm hcb hcs
    obtain ⟨p1, p2, p3⟩ := basket_pass_preserves cfg env g k m gsm hm hcb hcs
    by_cases hrm : Action.removeGrid m ∈ (basket_pass cfg env g k).2
    · obtain ⟨q1, q2⟩ := basket_pass_go_no_m cfg env ks (basket_pass cfg env g k).1 m (p3 hrm)
      simp only [basket_pass_go]
      refine ⟨?_, ?_⟩
      · intro a ha
        rcases List.mem_append.mp ha with ha | ha
        · exact p1 a ha
        · exact q2 a ha
      · intro hno
        exact absurd (List.mem_append.mpr (Or.inl hrm)) hno
    · obtain ⟨gs', hg1, hg2, hg3⟩ := p2 hrm
      obtain ⟨q1, q2⟩ := ih (basket_pass cfg env g k).1 m gs' hg1 hg2 hg3
      simp only [basket_pass_go]
      refine ⟨?_, ?_⟩
      · intro a ha
        rcases List.mem_append.mp ha with ha | ha
        · exact p1 a ha
        · exact q1 a ha
      · intro hno
        refine q2 ?_
        intro hmem
        exact hno (List.mem_append.mpr (Or.inr hmem))

/-- One full core pass (trigger pass, per-basket pass, `hedge_if_empty`)
never places an order for a both-sides-capped basket `m`; as long as nothing
in the pass destroys `m`, its registry entry survives with both capped flags
set, below the magic counter. -/
theorem core_pass_preserves (cfg : Config) (g : Globals) (env : TickEnv) (m : ℕ)
    (gsm : GridState) (hm : lookupReg g.registry m = some gsm)
    (hcb : gsm.capped_buy = true) (hcs : gsm.capped_sell = true)
    (hfresh : m < g.next_magic_number)
    (hlive : ∀ a ∈ (core_pass cfg g env).2, a.destroysBasket m = false) :
    (∀ a ∈ (core_pass cfg g env).2, a.isOrderFor m = false) ∧
    m < (core_pass cfg g env).1.next_magic_number ∧
    ∃ gs', lookupReg (core_pass cfg g env).1.registry m = some gs' ∧
      gs'.capped_buy = true ∧ gs'.capped_sell = true := by
  obtain ⟨t1, t2, t3⟩ := trig_pass_go_preserves cfg env.trigEnv
    (g.registry.map (fun kv => kv.1)) g m gsm hm hcb hcs hfresh
  obtain ⟨b1, b2⟩ := basket_pass_go_preserves cfg env
    ((handle_grid_trigger_and_cap cfg g env.trigEnv).1.registry.map (fun kv => kv.1))
    (handle_grid_trigger_and_cap cfg g env.trigEnv).1 m gsm t1 hcb hcs
  have hrm : Action.removeGrid m ∉
      (basket_pass_go cfg env
        ((handle_grid_trigger_and_cap cfg g env.trigEnv).1.registry.map (fun kv => kv.1))
        (handle_grid_trigger_and_cap cfg g env.trigEnv).1).2 := by
    intro hmem
    have hmem' : Action.removeGrid m ∈ (core_pass cfg g env).2 := by
      simp only [core_pass]
      exact List.mem_append.mpr (Or.inl (List.mem_append.mpr (Or.inr hmem)))
    have := hlive _ hmem'
    simp [Action.destroysBasket] at this
  obtain ⟨gs', hg1, hg2, hg3⟩ := b2 hrm
  have hne : (basket_pass_go cfg env
      ((handle_grid_trigger_and_cap cfg g env.trigEnv).1.registry.map (fun kv => kv.1))
      (handle_grid_trigger_and_cap cfg g env.trigEnv).1).1.registry ≠ [] :=
    lookupReg_ne_nil _ _ _ hg1
  have hh : hedge_if_empty cfg
      (basket_pass_go cfg env
        ((handle_grid_trigger_and_cap cfg g env.trigEnv).1.registry.map (fun kv => kv.1))
        (handle_grid_trigger_and_cap cfg g env.trigEnv).1).1 env.bootEnv =
      ((basket_pass_go cfg env
        ((handle_grid_trigger_and_cap cfg g env.trigEnv).1.registry.map (fun kv => kv.1))
        (handle_grid_trigger_and_cap cfg g env.trigEnv).1).1, []) := by
    rw [hedge_if_empty, if_pos (Or.inl hne)]
  refine ⟨?_, ?_, gs', ?_, hg2, hg3⟩
  · intro a ha
    simp only [core_pass, hh] at ha
    rw [List.append_nil] at ha
    rcases List.mem_append.mp ha with ha | ha
    · exact (t3 a ha).1
    · exact b1 a ha
  · show m < (core_pass cfg g env).1.next_magic_number
    simp only [core_pass, hh]
    rw [basket_pass_go_next]
    exact t2
  · show lookupReg (core_pass cfg g env).1.registry m = some gs'
    simp only [core_pass, hh]
    exact hg1

/-- One loop iteration never places an order for a both-sides-capped basket
`m`; as long as the iteration emits nothing destructive of `m`, the basket
survives it with both flags still set, below the magic counter. -/
theorem runTick_preserves (cfg : Config) (g : Globals) (env : TickEnv) (m : ℕ)
    (gsm : GridState) (hm : lookupReg g.registry m = some gsm)
    (hcb : gsm.capped_buy = true) (hcs : gsm.capped_sell = true)
    (hfresh : m < g.next_magic_number)
    (hlive : ∀ a ∈ (runTick cfg g env).2.1, a.destroysBasket m = false) :
    (∀ a ∈ (runTick cfg g env).2.1, a.isOrderFor m = false) ∧
    m < (runTick cfg g env).1.next_magic_number ∧
    ∃ gs', lookupReg (runTick cfg g env).1.registry m = some gs' ∧
      gs'.capped_buy = true ∧ gs'.capped_sell = true := by
  cases hch : (if 0 < cfg.profitTargetAmt ∨ 0 < cfg.maxLossAmt then env.equity else none) with
  | none =>
    have hr : runTick cfg g env = ((core_pass cfg g env).1, (core_pass cfg g env).2, true) := by
      simp only [runTick, hch]
    have hlive' : ∀ a ∈ (core_pass cfg g env).2, a.destroysBasket m = false := by
      intro a ha
      exact hlive a (by rw [hr]; exact ha)
    obtain ⟨c1, c2, c3⟩ := core_pass_preserves cfg g env m gsm hm hcb hcs hfresh hlive'
    rw [hr]
    exact ⟨c1, c2, c3⟩
  | some equity =>
    by_cases hp : 0 < cfg.profitTargetAmt ∧ cfg.profitTargetAmt ≤ equity - g.initial_equity
    · exfalso
      have hmem : Action.clearRegistry ∈ (runTick cfg g env).2.1 := by
        simp only [runTick, hch, if_pos hp]
        simp
      have := hlive _ hmem
      simp [Action.destroysBasket] at this
    · by_cases hl2 : 0 < cfg.maxLossAmt ∧ cfg.maxLossAmt ≤ g.initial_equity - equity
      · have hr : runTick cfg g env = (g,
            [.cancelSide none Side.buy, .cancelSide none Side.sell,
             .closeAllPositions "max_loss_limit_close"], false) := by
          simp only [runTick, hch, if_neg hp, if_pos hl2]
        rw [hr]
        refine ⟨?_, hfresh, gsm, hm, hcb, hcs⟩
        intro a ha
        simp only [List.mem_cons, List.not_mem_nil, or_false] at ha
        rcases ha with rfl | rfl | rfl <;> rfl
      · have hr : runTick cfg g env =
            ((core_pass cfg g env).1, (core_pass cfg g env).2, true) := by
          simp only [runTick, hch, if_neg hp, if_neg hl2]
        have hlive' : ∀ a ∈ (core_pass cfg g env).2, a.destroysBasket m = false := by
          intro a ha
          exact hlive a (by rw [hr]; exact ha)
        obtain ⟨c1, c2, c3⟩ := core_pass_preserves cfg g env m gsm hm hcb hcs hfresh hlive'
        rw [hr]
        exact ⟨c1, c2, c3⟩

/-- A basket capped on both sides (as `freeze_grid_and_start_new` leaves the
frozen basket). -/
def cappedGS : GridState :=
  { name := 'A'
    buy_anchor_price := some 2000
    sell_anchor_price := some 2010
    buy_sequence_index := 3
    sell_sequence_index := 2
    prev_buy_count := 1
    prev_sell_count := 1
    capped_buy := true
    capped_sell := true }

/-- Globals holding exactly the both-sides-capped basket 12345. -/
def cappedGlobals : Globals :=
  { initial_equity := 0
    registry := [(12345, cappedGS)]
    next_magic_number := 12346 }

/-- **C2** (amended).  Within one process run, once a basket is capped on
*both* sides its `GridState` keeps both capped flags set and the bot never
places another order (market or pending) for that basket, for as long as the
loop emits nothing that destroys the basket (its `removeGrid` deactivation or
the profit-target registry clear). -/
theorem capped_basket_never_trades_again (cfg : Config) (g : Globals)
    (envs : List TickEnv) (m : ℕ) (gsm : GridState)
    (hm : lookupReg g.registry m = some gsm)
    (hcb : gsm.capped_buy = true) (hcs : gsm.capped_sell = true)
    (hfresh : m < g.next_magic_number)
    (hlive : ∀ a ∈ (runTicks cfg g envs).2.1, a.destroysBasket m = false) :
    (∀ a ∈ (runTicks cfg g envs).2.1, a.isOrderFor m = false) ∧
    ∃ gs', lookupReg (runTicks cfg g envs).1.registry m = some gs' ∧
      gs'.capped_buy = true ∧ gs'.capped_sell = true := by
  revert hm hcb hcs hfresh hlive
  induction envs generalizing g gsm with
  | nil =>
    intro hm hcb hcs hfresh hlive
    exact ⟨by simp [runTicks], gsm, by simpa [runTicks] using hm, hcb, hcs⟩
  | cons e es ih =>
    intro hm hcb hcs hfresh hlive
    cases hb : (runTick cfg g e).2.2 with
    | false =>
      have hr : runTicks cfg g (e :: es) =
          ((runTick cfg g e).1, (runTick cfg g e).2.1, false) := by
        simp [runTicks, hb]
      have hlive1 : ∀ a ∈ (runTick cfg g e).2.1, a.destroysBasket m = false := by
        intro a ha
        exact hlive a (by rw [hr]; exact ha)
      obtain ⟨o1, n1, gs', hg, hb', hs'⟩ :=
        runTick_preserves cfg g e m gsm hm hcb hcs hfresh hlive1
      rw [hr]
      exact ⟨o1, gs', hg, hb', hs'⟩
    | true =>
      have hr : runTicks cfg g (e :: es) =
          ((runTicks cfg (runTick cfg g e).1 es).1,
           (runTick cfg g e).2.1 ++ (runTicks cfg (runTick cfg g e).1 es).2.1,
           (runTicks cfg (runTick cfg g e).1 es).2.2) := by
        simp [runTicks, hb]
      have hlive1 : ∀ a ∈ (runTick cfg g e).2.1, a.destroysBasket m = false := by
        intro a ha
        exact hlive a (by rw [hr]; exact List.mem_append.mpr (Or.inl ha))
      obtain ⟨o1, n1, gs', hg, hb', hs'⟩ :=
        runTick_preserves cfg g e m gsm hm hcb hcs hfresh hlive1
      have hlive2 : ∀ a ∈ (runTicks cfg (runTick cfg g e).1 es).2.1,
          a.destroysBasket m = false := by
        intro a ha
        exact hlive a (by rw [hr]; exact List.mem_append.mpr (Or.inr ha))
      obtain ⟨o2, hex⟩ := ih (runTick cfg g e).1 gs' hg hb' hs' n1 hlive2
      rw [hr]
      refine ⟨?_, hex⟩
      intro a ha
      rcases List.mem_append.mp ha with ha | ha
      · exact o1 a ha
      · exact o2 a ha

/-- Witness for C2: the both-sides-capped basket 12345, fresh below the magic
counter, keeps both flags and is never ordered for. -/
theorem capped_basket_never_trades_again_witness :
    lookupReg cappedGlobals.registry 12345 = some cappedGS ∧
    (∀ a ∈ (runTicks defaultConfig cappedGlobals []).2.1, a.isOrderFor 12345 = false) ∧
    ∃ gs', lookupReg (runTicks defaultConfig cappedGlobals []).1.registry 12345 = some gs' ∧
      gs'.capped_buy = true ∧ gs'.capped_sell = true := by
  refine ⟨rfl, ?_⟩
  exact capped_basket_never_trades_again defaultConfig cappedGlobals [] 12345 cappedGS
    rfl rfl rfl (by decide) (by simp [runTicks])

/-- A BUY position of basket 12345 carrying the freeze-time `CappedBuy`
re-tag. -/
def cappedBuyPos : Position :=
  { ticket := 11
    magic := 12345
    side := Side.buy
    volume := 0.01
    price_open := 2000
    tp := 0
    sl := 0
    comment := "GridA_CappedBuy"
    time := 10
    time_msc := 0 }

/-- A SELL grid position of basket 12345 with no cap tag. -/
def unCappedSellPos : Position :=
  { ticket := 12
    magic := 12345
    side := Side.sell
    volume := 0.01
    price_open := 2010
    tp := 0
    sl := 0
    comment := "GridA_gridsell"
    time := 11
    time_msc := 0 }

/-- A populator environment for the reconstructed basket: one successful
SELL-side placement attempt. -/
def sellStepEnvC2 : StepEnv :=
  { allPositions := [cappedBuyPos, unCappedSellPos]
    serverTime := none
    pendingOrders := []
    buyEvents := []
    sellEvents := [{ positions := [cappedBuyPos, unCappedSellPos], result := .done }] }

/-- Counterexample to C2 as stated: after a restart, reconstruction reads the
cap tags per side, so a basket frozen as `CappedBuy` comes back with
`capped_buy = true` but `capped_sell = false` — the flags are *not* set
together — and the very next `step_grid` places a fresh SELL limit order for
that capped basket. -/
theorem capped_flags_restart_counterexample :
    (match lookupReg (reconstruct_core ⟨0, [], 12346⟩
        [cappedBuyPos, unCappedSellPos] []).registry 12345 with
     | some gs => gs.capped_buy && !gs.capped_sell &&
         (step_grid defaultConfig 12345 gs sellStepEnvC2).2.any
           (fun a => a.isOrderFor 12345)
     | none => false) = true := by
  decide

end GridBot
